import Mathlib

/-!
Shallow embedding of the CrisisFlow ingestion/cache/forecast core:
`backend/kafka_consumer.py` (event cache + coarse hotspot aggregator),
`backend/prediction_engine.py` (velocity, acceleration, fine hotspots,
escalation forecasts) and `backend/danger_zones.py` (zone intensity and
evacuation zones).

Modelling conventions.
* Python floats are modelled as exact rationals (ℚ).  Where a constant is a
  specific IEEE double (math.pi) we use the exact rational value of that
  double.  Intermediate float rounding is modelled as exact arithmetic; the
  concrete values checked below are far from representation boundaries.
* `round` is Python's round-half-to-even (`pyRound`), `int()` on a float is
  truncation toward zero (`pyInt`).
* Event dictionaries become the `Event` structure; a field that may be absent
  from the event dict (every downstream read uses `.get` with a default) is an
  `Option`.  Python string truthiness (`a or b`, `if lat and lon`) is modelled
  explicitly (`pyOrStr`, `truthy`).
* Timestamps are whole minutes (ℤ).  `calculate_velocity` buckets a timestamp
  by zeroing seconds and snapping minutes down to a multiple of 5, which on
  whole minutes is exactly floor division of the absolute minute count by 5.
* Presentation-only fields that no claim mentions (window_start/window_end
  strings, zone_id strings, key_factors / recommended_actions wording,
  location/crisis_type of a prediction) are omitted from the records.
-/

/-- Python `round` on a rational: nearest integer, ties to even. -/
def pyRound (q : ℚ) : ℤ :=
  let f := ⌊q⌋
  let r := q - f
  if r < 1/2 then f
  else if 1/2 < r then f + 1
  else if 2 ∣ f then f else f + 1

/-- Python `int()` on a rational: truncation toward zero. -/
def pyInt (q : ℚ) : ℤ :=
  if q < 0 then ⌈q⌉ else ⌊q⌋

/-- Python `round(x, 1)`: one decimal place, ties to even. -/
def round1 (q : ℚ) : ℚ :=
  (pyRound (q * 10) : ℚ) / 10

/-- Python `a or b` on strings: `b` when `a` is empty (falsy), else `a`. -/
def pyOrStr (a b : String) : String :=
  if a = "" then b else a

/-- Python truthiness of a possibly-missing numeric field: `None`, `0` and
`0.0` are falsy. -/
def truthy : Option ℚ → Bool
  | none => false
  | some v => decide (v ≠ 0)

/-- The exact rational value of the IEEE double `math.pi`
(3.141592653589793 = 884279719003555 / 2^48). -/
def piQ : ℚ := 884279719003555 / 281474976710656

/-- An ingested event record (either stream).  Fields are optional because the
source reads each one with `.get(..., default)`; `tsMin?` is the event
timestamp in whole minutes. -/
structure Event where
  lat? : Option ℚ
  lon? : Option ℚ
  risk_level? : Option String
  urgency? : Option String
  category? : Option String
  fire_index? : Option ℚ
  flood_index? : Option ℚ
  tsMin? : Option ℤ
deriving DecidableEq

/-! ### Coarse hotspot aggregator (`KafkaEventConsumer.get_hotspots`) -/

/-- `grid = round(value * 2) / 2`: snap to the 0.5° grid. -/
def gridSnap05 (q : ℚ) : ℚ := (pyRound (q * 2) : ℚ) / 2

/-- Grid key of an event in `get_hotspots`: missing coordinates default to 0
(`event.get("location", {}).get("lat", 0)`). -/
def wkey (e : Event) : ℚ × ℚ :=
  (gridSnap05 (e.lat?.getD 0), gridSnap05 (e.lon?.getD 0))

/-- `event.get("risk_level", "low")`. -/
def eventRisk (e : Event) : String := e.risk_level?.getD "low"

/-- The `max_risk` update of `get_hotspots`:
`if risk == "critical" or cell.max_risk != "critical": cell.max_risk = risk`. -/
def updateRisk (cur r : String) : String :=
  if r = "critical" ∨ cur ≠ "critical" then r else cur

/-- One entry of the `grid_data` dict built by `get_hotspots`. -/
structure CellData where
  key : ℚ × ℚ
  weather_count : ℕ
  social_count : ℕ
  fire_indices : List ℚ
  flood_indices : List ℚ
  max_risk : String
deriving DecidableEq

/-- The dict entry created when a grid key is first seen. -/
def freshCell (k : ℚ × ℚ) : CellData :=
  ⟨k, 0, 0, [], [], "low"⟩

/-- Effect of one weather event on its grid cell: bump the count, append the
fire/flood indices (missing indices default to 0), update `max_risk`. -/
def applyWeather (c : CellData) (e : Event) : CellData :=
  { c with
    weather_count := c.weather_count + 1
    fire_indices := c.fire_indices ++ [e.fire_index?.getD 0]
    flood_indices := c.flood_indices ++ [e.flood_index?.getD 0]
    max_risk := updateRisk c.max_risk (eventRisk e) }

/-- Processing one weather event in the first aggregation loop of
`get_hotspots`: create the cell if its key is new, then update it.  The dict
is an insertion-ordered association list. -/
def addWeather (g : List CellData) (e : Event) : List CellData :=
  let k := wkey e
  let g1 := if g.any (fun c => c.key = k) then g else g ++ [freshCell k]
  g1.map (fun c => if c.key = k then applyWeather c e else c)

/-- Processing one social event in the second loop of `get_hotspots`: only
`if grid_key in grid_data` does `social_count` get bumped — a key not already
present (a cell touched only by the social stream) is dropped. -/
def addSocial (g : List CellData) (e : Event) : List CellData :=
  let k := wkey e
  g.map (fun c => if c.key = k then { c with social_count := c.social_count + 1 } else c)

/-- The full `grid_data` dict: weather loop, then social loop. -/
def buildGrid (w s : List Event) : List CellData :=
  s.foldl addSocial (w.foldl addWeather [])

/-- A HotspotCell as emitted by `get_hotspots`. -/
structure Hotspot where
  grid_lat : ℚ
  grid_lon : ℚ
  event_count : ℕ
  avg_fire_index : ℚ
  avg_flood_index : ℚ
  social_count : ℕ
  risk_level : String
deriving DecidableEq

/-- `sum(xs) / len(xs) if xs else 0`. -/
def listAvg (l : List ℚ) : ℚ :=
  if l = [] then 0 else l.sum / l.length

/-- Conversion of a grid cell to its HotspotCell. -/
def toHotspot (c : CellData) : Hotspot :=
  ⟨c.key.1, c.key.2, c.weather_count + c.social_count,
    round1 (listAvg c.fire_indices), round1 (listAvg c.flood_indices),
    c.social_count, c.max_risk⟩

/-- `risk_order = {"critical": 0, "high": 1, "moderate": 2, "low": 3}` with
default 3. -/
def riskOrder (r : String) : ℕ :=
  if r = "critical" then 0 else if r = "high" then 1
  else if r = "moderate" then 2 else 3

/-- The sort order of `get_hotspots`:
`key=lambda x: (risk_order.get(x["risk_level"], 3), -x["event_count"])`. -/
def hotspotLE (a b : Hotspot) : Prop :=
  riskOrder a.risk_level < riskOrder b.risk_level ∨
    (riskOrder a.risk_level = riskOrder b.risk_level ∧ b.event_count ≤ a.event_count)

instance : DecidableRel hotspotLE := fun a b =>
  inferInstanceAs (Decidable (riskOrder a.risk_level < riskOrder b.risk_level ∨
    (riskOrder a.risk_level = riskOrder b.risk_level ∧ b.event_count ≤ a.event_count)))

instance : IsTotal Hotspot hotspotLE :=
  ⟨fun a b => by
    unfold hotspotLE
    rcases Nat.lt_trichotomy (riskOrder a.risk_level) (riskOrder b.risk_level) with h | h | h
    · exact Or.inl (Or.inl h)
    · rcases Nat.le_total b.event_count a.event_count with h2 | h2
      · exact Or.inl (Or.inr ⟨h, h2⟩)
      · exact Or.inr (Or.inr ⟨h.symm, h2⟩)
    · exact Or.inr (Or.inl h)⟩

instance : IsTrans Hotspot hotspotLE :=
  ⟨fun a b c hab hbc => by
    unfold hotspotLE at *
    rcases hab with h1 | ⟨h1, h1c⟩ <;> rcases hbc with h2 | ⟨h2, h2c⟩
    · exact Or.inl (h1.trans h2)
    · exact Or.inl (h2 ▸ h1)
    · exact Or.inl (h1 ▸ h2)
    · exact Or.inr ⟨h1.trans h2, h2c.trans h1c⟩⟩

/-- `KafkaEventConsumer.get_hotspots` on given cache contents: aggregate both
streams onto the 0.5° grid, convert, and sort by
`(risk severity, -event_count)`. -/
def get_hotspots (w s : List Event) : List Hotspot :=
  List.insertionSort hotspotLE ((buildGrid w s).map toHotspot)

/-- Grid key of an emitted HotspotCell. -/
def hkey (h : Hotspot) : ℚ × ℚ := (h.grid_lat, h.grid_lon)

/-! ### Prediction engine (`prediction_engine.py`) -/

/-- The shared `severity_map` of `_get_severity_score` / zone intensity. -/
def severity_map (k : String) : Option ℚ :=
  if k = "critical" then some 100
  else if k = "high" then some 75
  else if k = "moderate" then some 50
  else if k = "medium" then some 50
  else if k = "low" then some 25
  else none

/-- `PredictionEngine._get_severity_score`:
`severity_map.get(risk_level, severity_map.get(urgency, 25))`
with `risk_level = event.get("risk_level", "")` and
`urgency = event.get("data", {}).get("urgency", "")`. -/
def pe_severity_score (e : Event) : ℚ :=
  (severity_map (e.risk_level?.getD "")).getD
    ((severity_map (e.urgency?.getD "")).getD 25)

/-- The inline score of `DangerZonePredictor.calculate_zone_intensity`:
`{...}.get(risk_level or urgency, 25)`. -/
def dz_severity_score (e : Event) : ℚ :=
  (severity_map (pyOrStr (e.risk_level?.getD "") (e.urgency?.getD ""))).getD 25

/-- The 5-minute bucket of an event inside `calculate_velocity`: an event with
no timestamp falls in the bucket of `now` (`event.get("timestamp", now)`). -/
def bucketOf (now : ℤ) (e : Event) : ℤ :=
  (e.tsMin?.getD now).fdiv 5

/-- The sorted list of distinct bucket keys (`sorted(time_buckets.items())`). -/
def sortedBuckets (now : ℤ) (events : List Event) : List ℤ :=
  List.insertionSort (fun a b => a ≤ b) ((events.map (bucketOf now)).dedup)

/-- The count stored in `time_buckets` for one bucket key. -/
def bucketCount (now : ℤ) (events : List Event) (b : ℤ) : ℚ :=
  ((events.filter (fun e => bucketOf now e = b)).length : ℚ)

/-- `PredictionEngine.calculate_velocity`: events/hour rate of change plus the
trend label.  The guards `if time_span_minutes > 0`, `if len(sorted_buckets)
> 0` and the conditional rates mirror the source. -/
def calculate_velocity (now : ℤ) (events : List Event) : ℚ × String :=
  if events.length < 2 then (0, "stable") else
  let sb := sortedBuckets now events
  if sb.length < 2 then (0, "stable") else
  let recent_count : ℚ := ((sb.drop (sb.length - 3)).map (bucketCount now events)).sum
  let older_count : ℚ :=
    if 3 < sb.length then ((sb.take (sb.length - 3)).map (bucketCount now events)).sum else 0
  let velocity : ℚ :=
    if 0 < sb.length then
      let recent_rate : ℚ := if (0 : ℚ) < 15 then recent_count / 15 else 0
      if 3 < sb.length then
        let older_span : ℚ := ((sb.length - 3 : ℕ) : ℚ) * 5
        let older_rate : ℚ := if 0 < older_span then older_count / older_span else 0
        (recent_rate - older_rate) * 60
      else recent_rate * 60
    else 0
  let trend : String :=
    if 30 < velocity then "escalating_rapidly"
    else if 10 < velocity then "escalating"
    else if velocity < -10 then "decreasing"
    else "stable"
  (velocity, trend)

/-- `PredictionEngine.calculate_risk_acceleration`: velocity of the last 50
events minus velocity of the 50 before them (Python slices `events[-50:]`,
`events[-100:-50]`, `events[:len//2]`). -/
def calculate_risk_acceleration (now : ℤ) (events : List Event) : ℚ :=
  if events.length < 10 then 0 else
  let recentEv := if 50 < events.length then events.drop (events.length - 50) else events
  let olderEv :=
    if 100 < events.length then (events.drop (events.length - 100)).take 50
    else events.take (events.length / 2)
  (calculate_velocity now recentEv).1 - (calculate_velocity now olderEv).1

/-- The location guard `if lat and lon` of `identify_hotspots` /
`calculate_zone_intensity`: both coordinates present and nonzero. -/
def includedLoc (e : Event) : Bool :=
  truthy e.lat? && truthy e.lon?

/-- Snap to the fine 0.05° grid: `round(value / grid_size) * grid_size`. -/
def gridSnap005 (q : ℚ) : ℚ := (pyRound (q * 20) : ℚ) / 20

/-- Fine grid key of an event (only evaluated on included events). -/
def fkey (e : Event) : ℚ × ℚ :=
  (gridSnap005 (e.lat?.getD 0), gridSnap005 (e.lon?.getD 0))

/-- One entry of the `hotspot_grid` defaultdict (the per-cell event list is
kept only for `primary_type`, which no claim mentions, so it is omitted). -/
structure FineCell where
  key : ℚ × ℚ
  count : ℕ
  sevSum : ℚ
deriving DecidableEq

/-- Processing one event in the grid loop of `identify_hotspots`. -/
def addFine (g : List FineCell) (e : Event) : List FineCell :=
  if includedLoc e then
    let k := fkey e
    let g1 := if g.any (fun c => c.key = k) then g else g ++ [⟨k, 0, 0⟩]
    g1.map (fun c => if c.key = k then ⟨k, c.count + 1, c.sevSum + pe_severity_score e⟩ else c)
  else g

/-- The populated `hotspot_grid`. -/
def fineGrid (events : List Event) : List FineCell :=
  events.foldl addFine []

/-- A fine hotspot record (lat, lon, intensity, event_count). -/
structure FineHotspot where
  lat : ℚ
  lon : ℚ
  intensity : ℚ
  event_count : ℕ
deriving DecidableEq

/-- Sort order `key=lambda x: x["intensity"], reverse=True`. -/
def fineGE (a b : FineHotspot) : Prop := b.intensity ≤ a.intensity

instance : DecidableRel fineGE := fun a b =>
  inferInstanceAs (Decidable (b.intensity ≤ a.intensity))

instance : IsTotal FineHotspot fineGE :=
  ⟨fun a b => (le_total b.intensity a.intensity).imp id id⟩

instance : IsTrans FineHotspot fineGE :=
  ⟨fun _ _ _ hab hbc => le_trans hbc hab⟩

/-- The record built for a cell with at least 3 events (`none` otherwise). -/
def fineCellOut (c : FineCell) : Option FineHotspot :=
  if 3 ≤ c.count then some ⟨c.key.1, c.key.2, c.sevSum / (c.count : ℚ), c.count⟩ else none

/-- `PredictionEngine.identify_hotspots`: cells with ≥ 3 events, intensity =
mean severity score, sorted by intensity descending, top 10. -/
def identify_hotspots (events : List Event) : List FineHotspot :=
  (List.insertionSort fineGE ((fineGrid events).filterMap fineCellOut)).take 10

/-- Severity band of `predict_escalation`. -/
def severityBand (p : ℚ) : String :=
  if 75 < p then "critical"
  else if 50 < p then "high"
  else if 30 < p then "moderate"
  else "low"

/-- One CrisisPrediction (presentation fields omitted, see header). -/
structure CrisisPrediction where
  time_horizon : ℕ
  probability : ℚ
  confidence : ℚ
  severity : String
  affected_population : ℤ
deriving DecidableEq

/-- The body of the per-horizon loop of `predict_escalation`: base keyed on
trend, acceleration adjustment clamped to [0,100], time factor, confidence,
severity band, population estimate. -/
def predictionFor (trend : String) (accel : ℚ) (nEvents : ℕ) (hcount : ℕ)
    (h : ℕ) : CrisisPrediction :=
  let base : ℚ :=
    if trend = "escalating_rapidly" then 85
    else if trend = "escalating" then 70
    else if trend = "stable" then 40
    else 20
  let base : ℚ :=
    if 10 < accel then min 100 (base + 15)
    else if accel < -10 then max 0 (base - 15)
    else base
  let tf : ℚ := 1 - (h : ℚ) / 240
  let p : ℚ := base * (1/2 + 1/2 * tf)
  let conf : ℚ := min 100 ((nEvents : ℚ) / 2)
  let conf : ℚ := if trend = "stable" then conf * (4/5) else conf
  let pop : ℚ := if hcount ≠ 0 then (hcount : ℚ) * 5000 * (p / 100) else 0
  ⟨h, round1 p, round1 conf, severityBand p, pyInt pop⟩

/-- `PredictionEngine.predict_escalation`: one prediction per horizon
30/60/120 minutes (the `stats` argument only feeds the omitted
`key_factors` wording). -/
def predict_escalation (now : ℤ) (events : List Event) : List CrisisPrediction :=
  let vt := calculate_velocity now events
  let accel := calculate_risk_acceleration now events
  let hs := identify_hotspots events
  [30, 60, 120].map (predictionFor vt.2 accel events.length hs.length)

/-! ### Danger zones (`danger_zones.py`)

`calculate_distance` is the haversine great-circle distance, a real-valued
trigonometric function with no executable exact embedding; the intensity
computation is therefore parametrised by the distance function
`dist center_lat center_lon lat lon`, and the theorems assume only its
nonnegativity (haversine is `R * c` with `R = 6371 > 0` and
`c = 2 * atan2(sqrt a, sqrt (1 - a)) ≥ 0`). -/

/-- `DangerZonePredictor.calculate_zone_intensity`: distance-weighted mean
severity of the events within `radius_km` of the center. -/
def calculate_zone_intensity (dist : ℚ → ℚ → ℚ → ℚ → ℚ) (events : List Event)
    (clat clon r : ℚ) : ℚ :=
  let acc := events.foldl
    (fun (a : ℚ × ℕ) e =>
      if includedLoc e then
        let d := dist clat clon (e.lat?.getD 0) (e.lon?.getD 0)
        if d ≤ r then (a.1 + dz_severity_score e * (1 - d / r), a.2 + 1) else a
      else a)
    (0, 0)
  if 0 < acc.2 then acc.1 / (acc.2 : ℚ) else acc.1

/-- A DangerZone record (`zone_id`, a formatted string, omitted). -/
structure DangerZone where
  center_lat : ℚ
  center_lon : ℚ
  radius_km : ℚ
  intensity : ℚ
  threat_level : String
  event_count : ℕ
  primary_type : String
deriving DecidableEq

/-- An EvacuationZone record. -/
structure EvacuationZone where
  center_lat : ℚ
  center_lon : ℚ
  evacuation_radius_km : ℚ
  danger_radius_km : ℚ
  estimated_population : ℤ
  threat_level : String
  priority : String
deriving DecidableEq

/-- The evacuation record built from one qualifying danger zone:
`evacuation_radius = radius * 1.5`,
`estimated_population = int(pi * evacuation_radius**2 * 100)`,
`priority = "immediate" if critical else "urgent"`. -/
def mkEvacuation (z : DangerZone) : EvacuationZone :=
  let er := z.radius_km * (3/2)
  ⟨z.center_lat, z.center_lon, round1 er, z.radius_km,
    pyInt (piQ * er ^ 2 * 100), z.threat_level,
    if z.threat_level = "critical" then "immediate" else "urgent"⟩

/-- `DangerZonePredictor.calculate_evacuation_zones`: keep zones with threat
level critical or severe, in order. -/
def calculate_evacuation_zones (zones : List DangerZone) : List EvacuationZone :=
  zones.foldl
    (fun acc z =>
      if z.threat_level = "critical" ∨ z.threat_level = "severe"
      then acc ++ [mkEvacuation z] else acc)
    []

/-! ### Division-checked variants

To settle the "no division-by-zero escapes to the caller" claim, each derived
view is re-stated with every Python `/` reified as `divE`, which fails exactly
when the denominator is zero.  The theorems prove these always return `ok`
with the plain value. -/

/-- Division that errors on a zero denominator (a Python `ZeroDivisionError`). -/
def divE (a b : ℚ) : Except Unit ℚ :=
  if b = 0 then Except.error () else Except.ok (a / b)

/-- `calculate_velocity` with checked divisions. -/
def calculate_velocityE (now : ℤ) (events : List Event) : Except Unit (ℚ × String) :=
  if events.length < 2 then Except.ok (0, "stable") else
  let sb := sortedBuckets now events
  if sb.length < 2 then Except.ok (0, "stable") else
  let recent_count : ℚ := ((sb.drop (sb.length - 3)).map (bucketCount now events)).sum
  let older_count : ℚ :=
    if 3 < sb.length then ((sb.take (sb.length - 3)).map (bucketCount now events)).sum else 0
  do
  let velocity : ℚ ←
    if 0 < sb.length then do
      let recent_rate : ℚ ← if (0 : ℚ) < 15 then divE recent_count 15 else pure 0
      if 3 < sb.length then do
        let older_span : ℚ := ((sb.length - 3 : ℕ) : ℚ) * 5
        let older_rate : ℚ ← if 0 < older_span then divE older_count older_span else pure 0
        pure ((recent_rate - older_rate) * 60)
      else pure (recent_rate * 60)
    else pure 0
  let trend : String :=
    if 30 < velocity then "escalating_rapidly"
    else if 10 < velocity then "escalating"
    else if velocity < -10 then "decreasing"
    else "stable"
  pure (velocity, trend)

/-- The cell-to-record step of `identify_hotspots` with a checked division. -/
def fineCellOutE (c : FineCell) : Except Unit (Option FineHotspot) :=
  if 3 ≤ c.count then do
    let i ← divE c.sevSum (c.count : ℚ)
    pure (some ⟨c.key.1, c.key.2, i, c.count⟩)
  else pure none

/-- `identify_hotspots` with checked divisions. -/
def identify_hotspotsE (events : List Event) : Except Unit (List FineHotspot) := do
  let outs ← (fineGrid events).mapM fineCellOutE
  pure ((List.insertionSort fineGE outs.reduceOption).take 10)

/-- `calculate_zone_intensity` with checked divisions (both the
`distance / radius_km` inside the loop and the final normalisation). -/
def calculate_zone_intensityE (dist : ℚ → ℚ → ℚ → ℚ → ℚ) (events : List Event)
    (clat clon r : ℚ) : Except Unit ℚ := do
  let acc ← events.foldlM
    (fun (a : ℚ × ℕ) e =>
      if includedLoc e then
        let d := dist clat clon (e.lat?.getD 0) (e.lon?.getD 0)
        if d ≤ r then do
          let q ← divE d r
          pure (a.1 + dz_severity_score e * (1 - q), a.2 + 1)
        else pure a
      else pure a)
    ((0, 0) : ℚ × ℕ)
  if 0 < acc.2 then divE acc.1 (acc.2 : ℚ) else pure acc.1

/-! ### Event cache and derived-cache state (`KafkaEventConsumer`) -/

/-- `EVENT_CACHE_SIZE` from `config.py`. -/
def EVENT_CACHE_SIZE : ℕ := 500

/-- The mutable state relevant to the cache claims: the two bounded stream
buffers plus the three derived TTL caches.  The prediction-engine cache
(`PredictionEngine.prediction_cache` / `last_calculation`) and the danger-zone
cache (`DangerZonePredictor.zone_cache`) live in other objects and are tracked
here only by whether they currently hold a value, which is all the clearing
claim is about. -/
structure SystemState where
  weather_events : List Event
  social_events : List Event
  hotspots_cache : Option (List Hotspot)
  prediction_cache_present : Bool
  zone_cache_present : Bool
deriving DecidableEq

/-- A freshly started consumer (no snapshot on disk). -/
def initState : SystemState :=
  ⟨[], [], none, false, false⟩

/-- `deque(maxlen=cap)` append: the oldest entries are dropped once the length
exceeds `cap`. -/
def dequeAppend (cap : ℕ) (l : List Event) (e : Event) : List Event :=
  let l2 := l ++ [e]
  if cap < l2.length then l2.drop (l2.length - cap) else l2

/-- A decoded Kafka message, by topic. -/
inductive KafkaMsg where
  | weather (e : Event)
  | social (e : Event)
deriving DecidableEq

/-- `KafkaEventConsumer._process_message`: append to the buffer matching the
topic.  (The forwarding to the prediction engine's own 1000-event window and
the metrics counters are not cache state and are omitted.) -/
def processMessage (cap : ℕ) (s : SystemState) (m : KafkaMsg) : SystemState :=
  match m with
  | .weather e => { s with weather_events := dequeAppend cap s.weather_events e }
  | .social e => { s with social_events := dequeAppend cap s.social_events e }

/-- The weather events of a message sequence, in arrival order. -/
def weatherOf (msgs : List KafkaMsg) : List Event :=
  msgs.filterMap (fun m => match m with | .weather e => some e | .social _ => none)

/-- The social events of a message sequence, in arrival order. -/
def socialOf (msgs : List KafkaMsg) : List Event :=
  msgs.filterMap (fun m => match m with | .social e => some e | .weather _ => none)

/-- The last `n` entries of a list (`list(xs)[-n:]` for `n > 0`). -/
def takeLast (n : ℕ) (l : List Event) : List Event :=
  l.drop (l.length - n)

/-- Python `list(xs)[-limit:]`: for `limit = 0` this is the whole list. -/
def latestSlice (limit : ℕ) (l : List Event) : List Event :=
  if limit = 0 then l else l.drop (l.length - limit)

/-- `KafkaEventConsumer.get_latest_events`: the trailing slice of each stream
(the `last_updated` wall-clock string is omitted). -/
def get_latest_events (limit : ℕ) (s : SystemState) : List Event × List Event :=
  (latestSlice limit s.weather_events, latestSlice limit s.social_events)

/-- `KafkaEventConsumer.clear_cache`: keep the newest
`int(len * keep_percentage)` events of each stream and drop the hotspot cache.
The prediction-engine and danger-zone caches are not touched by this method
(nor by its only caller, the `/api/cache/cycle` endpoint). -/
def clear_cache (keep : ℚ) (s : SystemState) : SystemState :=
  let wk := (pyInt ((s.weather_events.length : ℚ) * keep)).toNat
  let sk := (pyInt ((s.social_events.length : ℚ) * keep)).toNat
  { s with
    weather_events := if 0 < wk then takeLast wk s.weather_events else []
    social_events := if 0 < sk then takeLast sk s.social_events else []
    hotspots_cache := none }

/-! ### Cache lemmas (claims C3, C4) -/

theorem drop_append_of_le_len {α : Type} (l1 l2 : List α) (n : ℕ)
    (h : n ≤ l1.length) : (l1 ++ l2).drop n = l1.drop n ++ l2 := by
  induction l1 generalizing n with
  | nil =>
    simp only [List.length_nil, Nat.le_zero] at h
    simp [h]
  | cons a t ih =>
    cases n with
    | zero => simp
    | succ m =>
      simp only [List.length_cons, Nat.succ_le_succ_iff] at h
      simp only [List.cons_append, List.drop_succ_cons]
      exact ih m h

theorem dequeAppend_takeLast (cap : ℕ) (l : List Event) (e : Event) :
    dequeAppend cap (takeLast cap l) e = takeLast cap (l ++ [e]) := by
  unfold dequeAppend takeLast
  by_cases hc : l.length < cap
  · have h0 : l.length - cap = 0 := by omega
    have h1 : (l ++ [e]).length - cap = 0 := by simp; omega
    have h2 : ¬ cap < ((l.drop (l.length - cap)) ++ [e]).length := by
      simp [h0]; omega
    rw [if_neg h2, h0, h1, List.drop_zero, List.drop_zero]
  · push_neg at hc
    have hlen : ((l.drop (l.length - cap)) ++ [e]).length = cap + 1 := by
      simp; omega
    have h2 : cap < ((l.drop (l.length - cap)) ++ [e]).length := by omega
    simp only [if_pos h2, hlen]
    by_cases h3 : cap = 0
    · subst h3
      have : l.length - 0 = l.length := by omega
      simp [this, List.drop_eq_nil_of_le]
    · have h4 : (1 : ℕ) ≤ (l.drop (l.length - cap)).length := by simp; omega
      have h5 : cap + 1 - cap = 1 := by omega
      rw [h5, drop_append_of_le_len _ _ _ h4, List.drop_drop]
      have h6 : (l ++ [e]).length - cap = l.length + 1 - cap := by simp
      have h7 : l.length + 1 - cap ≤ l.length := by omega
      rw [h6, drop_append_of_le_len _ _ _ h7]
      have h8 : l.length - cap + 1 = l.length + 1 - cap := by omega
      rw [h8, if_pos (by omega : cap < cap + 1)]

theorem foldl_dequeAppend (cap : ℕ) (l : List Event) :
    l.foldl (dequeAppend cap) [] = takeLast cap l := by
  induction l using List.reverseRecOn with
  | nil => simp [takeLast]
  | append_singleton t e ih =>
    rw [List.foldl_append, List.foldl_cons, List.foldl_nil, ih, dequeAppend_takeLast]

theorem foldl_processMessage_weather (cap : ℕ) (msgs : List KafkaMsg) :
    ∀ s : SystemState,
      (msgs.foldl (processMessage cap) s).weather_events
        = (weatherOf msgs).foldl (dequeAppend cap) s.weather_events := by
  induction msgs with
  | nil => intro s; simp [weatherOf]
  | cons m t ih =>
    intro s
    cases m with
    | weather e =>
      simp only [List.foldl_cons, weatherOf, List.filterMap_cons]
      rw [ih]
      rfl
    | social e =>
      simp only [List.foldl_cons, weatherOf, List.filterMap_cons]
      rw [ih]
      rfl

theorem foldl_processMessage_social (cap : ℕ) (msgs : List KafkaMsg) :
    ∀ s : SystemState,
      (msgs.foldl (processMessage cap) s).social_events
        = (socialOf msgs).foldl (dequeAppend cap) s.social_events := by
  induction msgs with
  | nil => intro s; simp [socialOf]
  | cons m t ih =>
    intro s
    cases m with
    | weather e =>
      simp only [List.foldl_cons, socialOf, List.filterMap_cons]
      rw [ih]
      rfl
    | social e =>
      simp only [List.foldl_cons, socialOf, List.filterMap_cons]
      rw [ih]
      rfl

theorem latestSlice_of_length_eq (limit : ℕ) (l : List Event)
    (h : l.length = limit) : latestSlice limit l = l := by
  unfold latestSlice
  by_cases h0 : limit = 0
  · simp [h0]
  · have : l.length - limit = 0 := by omega
    simp [h0, this]

theorem takeLast_length_of_le (cap : ℕ) (l : List Event) (h : cap ≤ l.length) :
    (takeLast cap l).length = cap := by
  unfold takeLast
  simp
  omega

/-- A concrete weather event at (10, 10) used by several witnesses. -/
def evW10 : Event :=
  ⟨some 10, some 10, some "high", none, none, some 90, some 5, some 0⟩

/-- A second concrete weather event at (10, 10). -/
def evW10b : Event :=
  ⟨some 10, some 10, some "low", none, none, some 10, some 2, some 5⟩

/-- A concrete social event at (10, 10). -/
def evS10 : Event :=
  ⟨some 10, some 10, none, some "critical", some "flood", none, none, some 0⟩

/-- C3: for any message sequence, each stream's buffer after ingesting it from
an empty cache holds exactly the `cap` most recently appended events of that
stream whenever more than `cap` arrived, eviction being FIFO by arrival
position (timestamps play no role in `dequeAppend`), and `get_latest_events`
with limit `cap` returns exactly that buffer, in arrival order. -/
theorem cache_bounded_fifo_latest (cap : ℕ) (msgs : List KafkaMsg) :
    (cap < (weatherOf msgs).length →
      (msgs.foldl (processMessage cap) initState).weather_events
          = takeLast cap (weatherOf msgs)
        ∧ (takeLast cap (weatherOf msgs)).length = cap
        ∧ (get_latest_events cap (msgs.foldl (processMessage cap) initState)).1
            = takeLast cap (weatherOf msgs))
    ∧ (cap < (socialOf msgs).length →
      (msgs.foldl (processMessage cap) initState).social_events
          = takeLast cap (socialOf msgs)
        ∧ (takeLast cap (socialOf msgs)).length = cap
        ∧ (get_latest_events cap (msgs.foldl (processMessage cap) initState)).2
            = takeLast cap (socialOf msgs)) := by
  constructor
  · intro h
    have hbuf : (msgs.foldl (processMessage cap) initState).weather_events
        = takeLast cap (weatherOf msgs) := by
      rw [foldl_processMessage_weather]
      exact foldl_dequeAppend cap (weatherOf msgs)
    have hlen := takeLast_length_of_le cap (weatherOf msgs) (le_of_lt h)
    refine ⟨hbuf, hlen, ?_⟩
    show latestSlice cap (msgs.foldl (processMessage cap) initState).weather_events = _
    rw [hbuf, latestSlice_of_length_eq cap _ hlen]
  · intro h
    have hbuf : (msgs.foldl (processMessage cap) initState).social_events
        = takeLast cap (socialOf msgs) := by
      rw [foldl_processMessage_social]
      exact foldl_dequeAppend cap (socialOf msgs)
    have hlen := takeLast_length_of_le cap (socialOf msgs) (le_of_lt h)
    refine ⟨hbuf, hlen, ?_⟩
    show latestSlice cap (msgs.foldl (processMessage cap) initState).social_events = _
    rw [hbuf, latestSlice_of_length_eq cap _ hlen]

/-- Witness for C3: capacity 1, three weather appends and one social append;
the buffer keeps only the newest weather event. -/
theorem cache_bounded_fifo_latest_witness :
    (([KafkaMsg.weather evW10, KafkaMsg.social evS10, KafkaMsg.weather evW10b,
        KafkaMsg.weather evW10].foldl (processMessage 1) initState).weather_events
        = takeLast 1 (weatherOf [KafkaMsg.weather evW10, KafkaMsg.social evS10,
            KafkaMsg.weather evW10b, KafkaMsg.weather evW10])
      ∧ (takeLast 1 (weatherOf [KafkaMsg.weather evW10, KafkaMsg.social evS10,
            KafkaMsg.weather evW10b, KafkaMsg.weather evW10])).length = 1
      ∧ (get_latest_events 1 ([KafkaMsg.weather evW10, KafkaMsg.social evS10,
            KafkaMsg.weather evW10b, KafkaMsg.weather evW10].foldl
              (processMessage 1) initState)).1
          = takeLast 1 (weatherOf [KafkaMsg.weather evW10, KafkaMsg.social evS10,
              KafkaMsg.weather evW10b, KafkaMsg.weather evW10])) :=
  (cache_bounded_fifo_latest 1 [KafkaMsg.weather evW10, KafkaMsg.social evS10,
      KafkaMsg.weather evW10b, KafkaMsg.weather evW10]).1 (by decide)

theorem pyInt_of_nonneg (q : ℚ) (h : 0 ≤ q) : pyInt q = ⌊q⌋ := by
  unfold pyInt
  rw [if_neg (not_lt.mpr h)]

theorem keep_count_le_length (n : ℕ) (f : ℚ) (h0 : 0 ≤ f) (h1 : f ≤ 1/2) :
    ((pyInt ((n : ℚ) * f)).toNat ≤ n) := by
  rw [pyInt_of_nonneg _ (mul_nonneg (by positivity) h0)]
  have hle : (n : ℚ) * f ≤ n := by
    calc (n : ℚ) * f ≤ (n : ℚ) * 1 := by
          exact mul_le_mul_of_nonneg_left (by linarith) (by positivity)
      _ = n := mul_one _
  have hfl : ⌊(n : ℚ) * f⌋ ≤ ⌊(n : ℚ)⌋ := Int.floor_le_floor hle
  rw [Int.floor_natCast] at hfl
  omega

theorem clear_branch_length (k : ℕ) (l : List Event) (hk : k ≤ l.length) :
    (if 0 < k then takeLast k l else []).length = k := by
  by_cases h : 0 < k
  · rw [if_pos h]
    exact takeLast_length_of_le k l hk
  · rw [if_neg h]
    simp
    omega

theorem clear_branch_suffix (k : ℕ) (l : List Event) :
    (if 0 < k then takeLast k l else []) <:+ l := by
  by_cases h : 0 < k
  · rw [if_pos h]
    exact List.drop_suffix _ _
  · rw [if_neg h]
    exact List.nil_suffix

/-- C4 (amended): `clear_cache f` with `f ∈ [0, 1/2]` leaves exactly
`floor(size * f)` events per stream, always a suffix (the newest entries) of
the pre-clear contents, and invalidates the coarse hotspot cache — but it does
NOT invalidate the prediction-engine forecast cache or the danger-zone cache,
which are left exactly as they were (they only expire through their own
TTLs). -/
theorem clear_cache_keeps_suffix_invalidates_hotspots_only
    (s : SystemState) (f : ℚ) (h0 : 0 ≤ f) (h1 : f ≤ 1/2) :
    (clear_cache f s).weather_events.length
        = (⌊(s.weather_events.length : ℚ) * f⌋).toNat
      ∧ (clear_cache f s).weather_events <:+ s.weather_events
      ∧ (clear_cache f s).social_events.length
          = (⌊(s.social_events.length : ℚ) * f⌋).toNat
      ∧ (clear_cache f s).social_events <:+ s.social_events
      ∧ (clear_cache f s).hotspots_cache = none
      ∧ (clear_cache f s).prediction_cache_present = s.prediction_cache_present
      ∧ (clear_cache f s).zone_cache_present = s.zone_cache_present := by
  have hw := keep_count_le_length s.weather_events.length f h0 h1
  have hs := keep_count_le_length s.social_events.length f h0 h1
  have hwf : pyInt ((s.weather_events.length : ℚ) * f)
      = ⌊(s.weather_events.length : ℚ) * f⌋ :=
    pyInt_of_nonneg _ (mul_nonneg (by positivity) h0)
  have hsf : pyInt ((s.social_events.length : ℚ) * f)
      = ⌊(s.social_events.length : ℚ) * f⌋ :=
    pyInt_of_nonneg _ (mul_nonneg (by positivity) h0)
  have ew : (clear_cache f s).weather_events
      = (if 0 < (pyInt ((s.weather_events.length : ℚ) * f)).toNat
         then takeLast (pyInt ((s.weather_events.length : ℚ) * f)).toNat s.weather_events
         else []) := rfl
  have es : (clear_cache f s).social_events
      = (if 0 < (pyInt ((s.social_events.length : ℚ) * f)).toNat
         then takeLast (pyInt ((s.social_events.length : ℚ) * f)).toNat s.social_events
         else []) := rfl
  refine ⟨?_, ?_, ?_, ?_, rfl, rfl, rfl⟩
  · rw [ew, clear_branch_length _ _ hw, hwf]
  · rw [ew]
    exact clear_branch_suffix _ _
  · rw [es, clear_branch_length _ _ hs, hsf]
  · rw [es]
    exact clear_branch_suffix _ _

/-- A system state whose three derived caches all currently hold a value. -/
def sFull : SystemState :=
  ⟨[evW10, evW10b, evW10, evW10b, evW10], [evS10], some [], true, true⟩

/-- Witness for C4's amended theorem at `f = 2/5` on a 5-event weather stream:
2 = floor(5 * 2/5) events survive and they are a suffix. -/
theorem clear_cache_keeps_suffix_invalidates_hotspots_only_witness :
    (clear_cache (2/5) sFull).weather_events.length
        = (⌊((sFull.weather_events.length : ℚ) * (2/5) : ℚ)⌋).toNat
      ∧ (clear_cache (2/5) sFull).weather_events <:+ sFull.weather_events
      ∧ (clear_cache (2/5) sFull).social_events.length
          = (⌊((sFull.social_events.length : ℚ) * (2/5) : ℚ)⌋).toNat
      ∧ (clear_cache (2/5) sFull).social_events <:+ sFull.social_events
      ∧ (clear_cache (2/5) sFull).hotspots_cache = none
      ∧ (clear_cache (2/5) sFull).prediction_cache_present
          = sFull.prediction_cache_present
      ∧ (clear_cache (2/5) sFull).zone_cache_present = sFull.zone_cache_present :=
  clear_cache_keeps_suffix_invalidates_hotspots_only sFull (2/5)
    (by norm_num) (by norm_num)

/-- Counterexample for C4 as stated: after `clear_cache`, the
prediction-engine forecast cache and the danger-zone cache still hold their
values — the call does not invalidate them, contradicting "all derived caches
... are invalidated by the call". -/
theorem clear_cache_leaves_other_caches_cex :
    (clear_cache (1/5) sFull).prediction_cache_present = true
      ∧ (clear_cache (1/5) sFull).zone_cache_present = true := by
  constructor <;> rfl

/-! ### Grid-dictionary lemmas (claims C1, C2) -/

/-- Dict lookup in the association-list model of `grid_data`. -/
def findCell (k : ℚ × ℚ) (g : List CellData) : Option CellData :=
  g.find? (fun c => c.key = k)

/-- The keys of `grid_data`, in insertion order. -/
def keysOf (g : List CellData) : List (ℚ × ℚ) :=
  g.map (fun c => c.key)

/-- Folding the weather updates of one cell. -/
def cellFold (c : CellData) (l : List Event) : CellData :=
  l.foldl applyWeather c

theorem applyWeather_key (c : CellData) (e : Event) :
    (applyWeather c e).key = c.key := rfl

theorem find_key_map (g : List CellData) (k : ℚ × ℚ) (u : CellData → CellData)
    (hkey : ∀ c, (u c).key = c.key) :
    (g.map u).find? (fun c => c.key = k) = ((g.find? (fun c => c.key = k)).map u) := by
  induction g with
  | nil => rfl
  | cons a t ih =>
    by_cases h : a.key = k
    · rw [List.map_cons,
        List.find?_cons_of_pos _ (by simpa [hkey] using h),
        List.find?_cons_of_pos _ (by simpa using h)]
      rfl
    · rw [List.map_cons,
        List.find?_cons_of_neg _ (by simpa [hkey] using h),
        List.find?_cons_of_neg _ (by simpa using h)]
      exact ih

theorem keys_map_preserving (g : List CellData) (u : CellData → CellData)
    (hkey : ∀ c, (u c).key = c.key) : keysOf (g.map u) = keysOf g := by
  unfold keysOf
  rw [List.map_map]
  exact List.map_congr_left (fun c _ => hkey c)

theorem mem_keysOf_iff_findCell (k : ℚ × ℚ) (g : List CellData) :
    k ∈ keysOf g ↔ (findCell k g).isSome := by
  unfold keysOf findCell
  rw [List.find?_isSome]
  constructor
  · intro hm
    rcases List.mem_map.mp hm with ⟨c, hc, hk⟩
    exact ⟨c, hc, by simpa using hk⟩
  · rintro ⟨c, hc, hk⟩
    exact List.mem_map.mpr ⟨c, hc, by simpa using hk⟩

theorem findCell_none_of_any_false (k : ℚ × ℚ) (g : List CellData)
    (h : g.any (fun c => c.key = k) = false) : findCell k g = none := by
  unfold findCell
  rw [List.find?_eq_none]
  intro c hc hck
  exact (List.any_eq_false.mp h c hc) hck

theorem findCell_key (k : ℚ × ℚ) (g : List CellData) (c : CellData)
    (h : findCell k g = some c) : c.key = k := by
  unfold findCell at h
  have h2 := List.find?_some h
  simpa using h2

theorem map_upd_findCell_ne (g : List CellData) (k k2 : ℚ × ℚ) (hne : ¬ k2 = k)
    (f : CellData → CellData) :
    Option.map (fun c => if c.key = k2 then f c else c) (findCell k g)
      = findCell k g := by
  rcases hopt : findCell k g with _ | c
  · rfl
  · have hkc : c.key = k := findCell_key k g c hopt
    show some (if c.key = k2 then f c else c) = some c
    rw [if_neg (fun h2 => hne (hkc.symm.trans h2).symm)]

theorem addWeather_findCell (g : List CellData) (e : Event) (k : ℚ × ℚ) :
    findCell k (addWeather g e)
      = if wkey e = k
        then some (applyWeather ((findCell k g).getD (freshCell k)) e)
        else findCell k g := by
  unfold addWeather
  have hupd : ∀ c : CellData,
      ((fun c => if c.key = wkey e then applyWeather c e else c) c).key = c.key := by
    intro c
    by_cases h : c.key = wkey e <;> simp [h, applyWeather_key]
  by_cases hany : g.any (fun c => c.key = wkey e)
  · simp only [hany, if_true]
    show (g.map _).find? _ = _
    rw [find_key_map g k _ hupd]
    by_cases hk : wkey e = k
    · subst hk
      have hsome : (g.find? (fun c => c.key = wkey e)).isSome := by
        rw [List.find?_isSome]
        simpa using hany
      rcases Option.isSome_iff_exists.mp hsome with ⟨c, hc⟩
      have hkc : c.key = wkey e := findCell_key _ g c hc
      rw [if_pos rfl, hc, show findCell (wkey e) g = some c from hc]
      show some (if c.key = wkey e then applyWeather c e else c)
        = some (applyWeather c e)
      rw [if_pos hkc]
    · rw [if_neg hk]
      exact map_upd_findCell_ne g k (wkey e) hk _
  · have hany' : g.any (fun c => c.key = wkey e) = false := by
      simpa using hany
    simp only [hany', Bool.false_eq_true, if_false]
    show ((g ++ [freshCell (wkey e)]).map _).find? _ = _
    rw [find_key_map _ k _ hupd, List.find?_append]
    have hnone : findCell (wkey e) g = none := findCell_none_of_any_false _ _ hany'
    by_cases hk : wkey e = k
    · subst hk
      rw [if_pos rfl, show List.find? (fun c : CellData => c.key = wkey e) g
          = none from hnone]
      have hfr : ([freshCell (wkey e)].find? (fun c => c.key = wkey e))
          = some (freshCell (wkey e)) :=
        List.find?_cons_of_pos _ (by simp [freshCell])
      rw [hfr, Option.none_or, show findCell (wkey e) g = none from hnone]
      show some (if (freshCell (wkey e)).key = wkey e
          then applyWeather (freshCell (wkey e)) e else freshCell (wkey e))
        = some (applyWeather (freshCell (wkey e)) e)
      rw [if_pos (show (freshCell (wkey e)).key = wkey e from rfl)]
    · rw [if_neg hk]
      have hfr : ([freshCell (wkey e)].find? (fun c => c.key = k)) = none := by
        rw [List.find?_cons_of_neg _ (by simpa using hk), List.find?_nil]
      rw [hfr, Option.or_none]
      exact map_upd_findCell_ne g k (wkey e) hk _

theorem foldl_addWeather_findCell_some (w : List Event) :
    ∀ (g : List CellData) (c : CellData) (k : ℚ × ℚ), findCell k g = some c →
      findCell k (w.foldl addWeather g)
        = some (cellFold c (w.filter (fun e => wkey e = k))) := by
  induction w with
  | nil => intro g c k h; simpa [cellFold] using h
  | cons e t ih =>
    intro g c k h
    rw [List.foldl_cons]
    by_cases hk : wkey e = k
    · have h2 : findCell k (addWeather g e) = some (applyWeather c e) := by
        rw [addWeather_findCell, if_pos hk, h]
        rfl
      rw [ih _ _ _ h2, List.filter_cons_of_pos (by simpa using hk)]
      rfl
    · have h2 : findCell k (addWeather g e) = some c := by
        rw [addWeather_findCell, if_neg hk, h]
      rw [ih _ _ _ h2, List.filter_cons_of_neg (by simpa using hk)]

theorem foldl_addWeather_findCell_none (w : List Event) :
    ∀ (g : List CellData) (k : ℚ × ℚ), findCell k g = none →
      findCell k (w.foldl addWeather g)
        = if w.filter (fun e => wkey e = k) = [] then none
          else some (cellFold (freshCell k) (w.filter (fun e => wkey e = k))) := by
  induction w with
  | nil => intro g k h; simpa using h
  | cons e t ih =>
    intro g k h
    rw [List.foldl_cons]
    by_cases hk : wkey e = k
    · have h2 : findCell k (addWeather g e) = some (applyWeather (freshCell k) e) := by
        rw [addWeather_findCell, if_pos hk, h]
        rfl
      rw [foldl_addWeather_findCell_some t _ _ _ h2,
        List.filter_cons_of_pos (by simpa using hk),
        if_neg (by simp)]
      rfl
    · have h2 : findCell k (addWeather g e) = none := by
        rw [addWeather_findCell, if_neg hk, h]
      rw [ih _ _ h2, List.filter_cons_of_neg (by simpa using hk)]

theorem addSocial_findCell (g : List CellData) (e : Event) (k : ℚ × ℚ) :
    findCell k (addSocial g e)
      = Option.map
          (fun c => if c.key = wkey e
                    then { c with social_count := c.social_count + 1 } else c)
          (findCell k g) := by
  unfold addSocial
  exact find_key_map g k _ (by intro c; by_cases h : c.key = wkey e <;> simp [h])

theorem foldl_addSocial_max_risk (s : List Event) :
    ∀ (g : List CellData) (k : ℚ × ℚ),
      Option.map (fun c => c.max_risk) (findCell k (s.foldl addSocial g))
        = Option.map (fun c => c.max_risk) (findCell k g) := by
  induction s with
  | nil => intro g k; rfl
  | cons e t ih =>
    intro g k
    rw [List.foldl_cons, ih, addSocial_findCell]
    rcases findCell k g with _ | c
    · rfl
    · show some _ = some c.max_risk
      by_cases h : c.key = wkey e <;> simp [h]

theorem addWeather_keys (g : List CellData) (e : Event) :
    keysOf (addWeather g e)
      = if g.any (fun c => c.key = wkey e) then keysOf g
        else keysOf g ++ [wkey e] := by
  unfold addWeather
  have hupd : ∀ c : CellData,
      ((fun c => if c.key = wkey e then applyWeather c e else c) c).key = c.key := by
    intro c
    by_cases h : c.key = wkey e <;> simp [h, applyWeather_key]
  by_cases hany : g.any (fun c => c.key = wkey e)
  · simp only [hany, if_true]
    exact keys_map_preserving g _ hupd
  · simp only [hany, Bool.false_eq_true, if_false]
    rw [keys_map_preserving _ _ hupd]
    unfold keysOf
    rw [List.map_append]
    rfl

theorem addSocial_keys (g : List CellData) (e : Event) :
    keysOf (addSocial g e) = keysOf g := by
  unfold addSocial
  exact keys_map_preserving g _ (by intro c; by_cases h : c.key = wkey e <;> simp [h])

theorem foldl_addSocial_keys (s : List Event) :
    ∀ g : List CellData, keysOf (s.foldl addSocial g) = keysOf g := by
  induction s with
  | nil => intro g; rfl
  | cons e t ih =>
    intro g
    rw [List.foldl_cons, ih, addSocial_keys]

theorem wkey_mem_keys_of_any (g : List CellData) (k : ℚ × ℚ)
    (h : g.any (fun c => c.key = k) = true) : k ∈ keysOf g := by
  rcases List.any_eq_true.mp h with ⟨c, hc, hck⟩
  exact List.mem_map.mpr ⟨c, hc, by simpa using hck⟩

theorem not_mem_keys_of_any_false (g : List CellData) (k : ℚ × ℚ)
    (h : g.any (fun c => c.key = k) = false) : k ∉ keysOf g := by
  intro hm
  rcases List.mem_map.mp hm with ⟨c, hc, hck⟩
  exact (List.any_eq_false.mp h c hc) (by simpa using hck)

theorem foldl_addWeather_nodup (w : List Event) :
    ∀ g : List CellData, (keysOf g).Nodup → (keysOf (w.foldl addWeather g)).Nodup := by
  induction w with
  | nil => intro g h; exact h
  | cons e t ih =>
    intro g h
    rw [List.foldl_cons]
    apply ih
    rw [addWeather_keys]
    by_cases hany : g.any (fun c => c.key = wkey e)
    · rwa [if_pos hany]
    · rw [if_neg hany]
      have hnm : wkey e ∉ keysOf g :=
        not_mem_keys_of_any_false g (wkey e) (by simpa using hany)
      simpa [List.nodup_append] using ⟨h, hnm⟩

theorem foldl_addWeather_mem_keys (w : List Event) :
    ∀ (g : List CellData) (k : ℚ × ℚ),
      k ∈ keysOf (w.foldl addWeather g) ↔ k ∈ keysOf g ∨ ∃ e ∈ w, wkey e = k := by
  induction w with
  | nil => intro g k; simp
  | cons e t ih =>
    intro g k
    rw [List.foldl_cons, ih, addWeather_keys]
    by_cases hany : g.any (fun c => c.key = wkey e)
    · rw [if_pos hany]
      constructor
      · rintro (h | ⟨e2, he2, hk⟩)
        · exact Or.inl h
        · exact Or.inr ⟨e2, List.mem_cons_of_mem _ he2, hk⟩
      · rintro (h | ⟨e2, he2, hk⟩)
        · exact Or.inl h
        · rcases List.mem_cons.mp he2 with rfl | he2t
          · exact Or.inl (hk ▸ wkey_mem_keys_of_any g (wkey e2) hany)
          · exact Or.inr ⟨e2, he2t, hk⟩
    · rw [if_neg hany, List.mem_append]
      constructor
      · rintro ((h | h) | ⟨e2, he2, hk⟩)
        · exact Or.inl h
        · exact Or.inr ⟨e, List.mem_cons_self _ _, (List.mem_singleton.mp h).symm⟩
        · exact Or.inr ⟨e2, List.mem_cons_of_mem _ he2, hk⟩
      · rintro (h | ⟨e2, he2, hk⟩)
        · exact Or.inl (Or.inl h)
        · rcases List.mem_cons.mp he2 with rfl | he2t
          · exact Or.inl (Or.inr (List.mem_singleton.mpr hk.symm))
          · exact Or.inr ⟨e2, he2t, hk⟩

theorem findCell_of_mem_nodup :
    ∀ (g : List CellData) (c : CellData), c ∈ g → (keysOf g).Nodup →
      findCell c.key g = some c := by
  intro g
  induction g with
  | nil => intro c hc; exact absurd hc (List.not_mem_nil c)
  | cons a t ih =>
    intro c hc hnd
    have hnd2 : a.key ∉ keysOf t ∧ (keysOf t).Nodup := by
      have : keysOf (a :: t) = a.key :: keysOf t := rfl
      rw [this, List.nodup_cons] at hnd
      exact hnd
    rcases List.mem_cons.mp hc with rfl | hct
    · unfold findCell
      exact List.find?_cons_of_pos _ (by simp)
    · have hne : ¬ a.key = c.key := by
        intro h
        exact hnd2.1 (h ▸ List.mem_map.mpr ⟨c, hct, rfl⟩)
      unfold findCell
      rw [List.find?_cons_of_neg _ (by simpa using hne)]
      exact ih c hct hnd2.2

theorem cellFold_max_risk (l : List Event) :
    ∀ c : CellData,
      (cellFold c l).max_risk = (l.map eventRisk).foldl updateRisk c.max_risk := by
  induction l with
  | nil => intro c; rfl
  | cons e t ih =>
    intro c
    show (cellFold (applyWeather c e) t).max_risk = _
    rw [ih, List.map_cons, List.foldl_cons]
    rfl

theorem foldl_updateRisk_char (rs : List String) :
    ∀ cur : String,
      rs.foldl updateRisk cur
        = if cur = "critical" ∨ "critical" ∈ rs then "critical"
          else rs.getLast?.getD cur := by
  induction rs with
  | nil =>
    intro cur
    by_cases h : cur = "critical"
    · simp [h]
    · simp [h]
  | cons r t ih =>
    intro cur
    rw [List.foldl_cons]
    by_cases hcur : cur = "critical"
    · subst hcur
      have hupd : updateRisk "critical" r = if r = "critical" then r else "critical" := by
        unfold updateRisk
        by_cases hr : r = "critical"
        · rw [if_pos (Or.inl hr), if_pos hr]
        · rw [if_neg (by simp [hr]), if_neg hr]
      by_cases hr : r = "critical"
      · rw [hupd, if_pos hr, ih r, if_pos (Or.inl hr), if_pos (Or.inl rfl)]
      · rw [hupd, if_neg hr, ih "critical", if_pos (Or.inl rfl), if_pos (Or.inl rfl)]
    · have hupd : updateRisk cur r = r := by
        unfold updateRisk
        rw [if_pos (Or.inr hcur)]
      rw [hupd, ih r]
      have hiff : (cur = "critical" ∨ "critical" ∈ r :: t)
          ↔ (r = "critical" ∨ "critical" ∈ t) := by
        rw [List.mem_cons]
        constructor
        · rintro (h | h | h)
          · exact absurd h hcur
          · exact Or.inl h.symm
          · exact Or.inr h
        · rintro (h | h)
          · exact Or.inr (Or.inl h.symm)
          · exact Or.inr (Or.inr h)
      by_cases hcrit : r = "critical" ∨ "critical" ∈ t
      · rw [if_pos hcrit, if_pos (hiff.mpr hcrit)]
      · rw [if_neg hcrit, if_neg (fun h => hcrit (hiff.mp h))]
        cases t with
        | nil => rfl
        | cons y t2 =>
          rw [List.getLast?_cons_cons]
          rcases hlast : (y :: t2).getLast? with _ | z
          · have hs : ((y :: t2).getLast?).isSome :=
              List.getLast?_isSome.mpr (by simp)
            rw [hlast] at hs
            exact absurd hs (by simp)
          · rfl

/-- The severity order of the spec (low < moderate < high < critical), used
to state what the spec's "maximum severity" would be. -/
def sevRank (r : String) : ℕ :=
  if r = "critical" then 3 else if r = "high" then 2
  else if r = "moderate" then 1 else 0

/-- Modelled from the spec's words: the maximum severity over a list of risk
levels in the order low < moderate < high < critical. -/
def specMaxRiskLevel (rs : List String) : String :=
  rs.foldl (fun acc r => if sevRank acc < sevRank r then r else acc) "low"

/-- C1 (amended): the `risk_level` of a HotspotCell is "critical" as soon as
any weather event mapped to the cell has risk "critical" (a single critical
event wins regardless of count); otherwise it is the risk of the LAST weather
event mapped to the cell in arrival order — not the maximum severity. -/
theorem hotspot_risk_level_critical_or_last (w s : List Event) (h : Hotspot)
    (hmem : h ∈ get_hotspots w s) :
    h.risk_level
      = (if "critical" ∈ (w.filter (fun e => wkey e = hkey h)).map eventRisk
         then "critical"
         else ((w.filter (fun e => wkey e = hkey h)).map eventRisk).getLast?.getD "low") := by
  have hmem2 : h ∈ (buildGrid w s).map toHotspot :=
    (List.perm_insertionSort hotspotLE ((buildGrid w s).map toHotspot)).mem_iff.mp hmem
  rcases List.mem_map.mp hmem2 with ⟨c, hcg, rfl⟩
  have hnodup : (keysOf (buildGrid w s)).Nodup := by
    have h1 : keysOf (buildGrid w s) = keysOf (w.foldl addWeather []) :=
      foldl_addSocial_keys s (w.foldl addWeather [])
    rw [h1]
    exact foldl_addWeather_nodup w [] List.nodup_nil
  have hfind : findCell c.key (s.foldl addSocial (w.foldl addWeather [])) = some c :=
    findCell_of_mem_nodup _ c hcg hnodup
  have hgw := foldl_addSocial_max_risk s (w.foldl addWeather []) c.key
  rw [hfind] at hgw
  rcases hfg : findCell c.key (w.foldl addWeather []) with _ | c2
  · rw [hfg] at hgw
    exact absurd hgw (by simp)
  · rw [hfg] at hgw
    have hmr : c.max_risk = c2.max_risk := by simpa using hgw
    have hw := foldl_addWeather_findCell_none w [] c.key rfl
    rw [hfg] at hw
    by_cases hfe : w.filter (fun e => wkey e = c.key) = []
    · rw [if_pos hfe] at hw
      exact absurd hw (by simp)
    · rw [if_neg hfe] at hw
      have hc2 : c2 = cellFold (freshCell c.key) (w.filter (fun e => wkey e = c.key)) :=
        Option.some.inj hw
      show c.max_risk = _
      rw [hmr, hc2, cellFold_max_risk, show (freshCell c.key).max_risk = "low" from rfl,
        foldl_updateRisk_char]
      simp only [show (("low" : String) = "critical") = False from by simp, false_or]
      rfl

/-- The HotspotCell that `get_hotspots [evW10] []` produces. -/
def hW10 : Hotspot := ⟨10, 10, 1, 90, 5, 0, "high"⟩

theorem wkey_evW10 : wkey evW10 = ((10 : ℚ), (10 : ℚ)) := by
  unfold wkey gridSnap05 pyRound evW10
  norm_num

theorem wkey_evW10b : wkey evW10b = ((10 : ℚ), (10 : ℚ)) := by
  unfold wkey gridSnap05 pyRound evW10b
  norm_num

theorem wkey_evS10 : wkey evS10 = ((10 : ℚ), (10 : ℚ)) := by
  unfold wkey gridSnap05 pyRound evS10
  norm_num

theorem listAvg_pair (a b : ℚ) : listAvg [a, b] = (a + b) / 2 := by
  unfold listAvg
  rw [if_neg (by simp)]
  norm_num

theorem listAvg_single (a : ℚ) : listAvg [a] = a := by
  unfold listAvg
  rw [if_neg (by simp)]
  norm_num

theorem pyRound_int (n : ℤ) : pyRound (n : ℚ) = n := by
  unfold pyRound
  norm_num

theorem round1_int (n : ℤ) : round1 (n : ℚ) = n := by
  unfold round1
  rw [show (n : ℚ) * 10 = ((n * 10 : ℤ) : ℚ) from by push_cast; ring, pyRound_int]
  push_cast
  ring

theorem buildGrid_single :
    buildGrid [evW10] [] = [⟨((10 : ℚ), (10 : ℚ)), 1, 0, [90], [5], "high"⟩] := by
  unfold buildGrid
  rw [List.foldl_nil, List.foldl_cons, List.foldl_nil]
  unfold addWeather
  rw [wkey_evW10]
  simp [freshCell, applyWeather, updateRisk, eventRisk, evW10]

theorem get_hotspots_single : get_hotspots [evW10] [] = [hW10] := by
  unfold get_hotspots
  rw [buildGrid_single]
  simp only [List.map_cons, List.map_nil, toHotspot]
  rw [listAvg_single, listAvg_single]
  norm_num [round1, pyRound, hW10, List.insertionSort, List.orderedInsert]

/-- Witness for C1's amended theorem on a one-event cache. -/
theorem hotspot_risk_level_critical_or_last_witness :
    hW10.risk_level
      = (if "critical" ∈ ([evW10].filter (fun e => wkey e = hkey hW10)).map eventRisk
         then "critical"
         else (([evW10].filter (fun e => wkey e = hkey hW10)).map eventRisk).getLast?.getD "low") :=
  hotspot_risk_level_critical_or_last [evW10] [] hW10
    (by rw [get_hotspots_single]; exact List.mem_singleton.mpr rfl)

/-- Counterexample for C1 as stated: a cell containing a "high" event followed
by a "low" event gets `risk_level = "low"`, while the maximum severity over
the cell (per the spec's order) is "high".  The code only keeps "critical"
sticky; otherwise the last event wins. -/
theorem buildGrid_pair :
    buildGrid [evW10, evW10b] []
      = [⟨((10 : ℚ), (10 : ℚ)), 2, 0, [90, 10], [5, 2], "low"⟩] := by
  unfold buildGrid
  rw [List.foldl_nil, List.foldl_cons, List.foldl_cons, List.foldl_nil]
  unfold addWeather
  rw [wkey_evW10, wkey_evW10b]
  simp [freshCell, applyWeather, updateRisk, eventRisk, evW10, evW10b]

theorem get_hotspots_pair :
    get_hotspots [evW10, evW10b] [] = [⟨10, 10, 2, 50, 7/2, 0, "low"⟩] := by
  unfold get_hotspots
  rw [buildGrid_pair]
  simp only [List.map_cons, List.map_nil, toHotspot]
  rw [listAvg_pair, listAvg_pair]
  norm_num [round1, pyRound, List.insertionSort, List.orderedInsert]

theorem hotspot_risk_level_not_max_cex :
    ((get_hotspots [evW10, evW10b] []).map (fun h => h.risk_level)) = ["low"]
      ∧ specMaxRiskLevel ([evW10, evW10b].map eventRisk) = "high"
      ∧ ("low" : String) ≠ "high" := by
  refine ⟨by rw [get_hotspots_pair]; rfl, by decide, by decide⟩

/-- C2 (amended): `hotspots()` emits exactly one HotspotCell per non-empty
0.5° grid cell touched by the WEATHER stream (social events only add to
`social_count` of cells the weather stream already touched — a cell touched
only by the social stream yields no HotspotCell), and the result is sorted by
risk severity (critical first) with ties broken by `event_count` descending. -/
theorem hotspots_weather_cells_sorted (w s : List Event) :
    List.Sorted hotspotLE (get_hotspots w s)
      ∧ ((get_hotspots w s).map hkey).Nodup
      ∧ ∀ k : ℚ × ℚ, k ∈ (get_hotspots w s).map hkey ↔ ∃ e ∈ w, wkey e = k := by
  have hp : ((get_hotspots w s).map hkey).Perm (keysOf (buildGrid w s)) := by
    have hp1 := (List.perm_insertionSort hotspotLE ((buildGrid w s).map toHotspot)).map hkey
    rw [List.map_map] at hp1
    exact hp1
  have hkeq : keysOf (buildGrid w s) = keysOf (w.foldl addWeather []) :=
    foldl_addSocial_keys s (w.foldl addWeather [])
  refine ⟨List.sorted_insertionSort hotspotLE _, ?_, ?_⟩
  · rw [hp.nodup_iff, hkeq]
    exact foldl_addWeather_nodup w [] List.nodup_nil
  · intro k
    rw [hp.mem_iff, hkeq, foldl_addWeather_mem_keys w [] k]
    simp [keysOf]

/-- Counterexample for C2 as stated: a cache holding one social event and no
weather events touches grid cell (10, 10) through the social stream, yet
`hotspots()` returns no HotspotCell at all. -/
theorem hotspots_social_only_cell_dropped_cex :
    get_hotspots [] [evS10] = [] ∧ wkey evS10 = ((10 : ℚ), (10 : ℚ)) := by
  refine ⟨rfl, wkey_evS10⟩

/-! ### Severity scores (claim C7) -/

/-- C7 (amended): the prediction-engine score and the danger-zone score agree
on every event whose `risk_level` is absent/empty or is one of the recognised
keys; they are NOT extensionally equal in general (see the counterexample:
they differ when `risk_level` is an unrecognised non-empty string and
`urgency` is recognised, because only the prediction engine then falls back
to `urgency`). -/
theorem severity_scores_agree (e : Event)
    (h : e.risk_level?.getD "" = "" ∨ (severity_map (e.risk_level?.getD "")).isSome) :
    pe_severity_score e = dz_severity_score e := by
  unfold pe_severity_score dz_severity_score pyOrStr
  rcases h with h | h
  · rw [h, if_pos rfl, show severity_map "" = none from by simp [severity_map]]
    rfl
  · rcases Option.isSome_iff_exists.mp h with ⟨v, hv⟩
    have hne : ¬ e.risk_level?.getD "" = "" := by
      intro h0
      rw [h0] at hv
      simp [severity_map] at hv
    rw [if_neg hne, hv]
    rfl

/-- Witness for C7's amended theorem: a weather event with a recognised
risk level. -/
theorem severity_scores_agree_witness :
    pe_severity_score evW10 = dz_severity_score evW10 :=
  severity_scores_agree evW10 (Or.inr (by decide))

/-- An event with an unrecognised `risk_level` and a recognised `urgency`. -/
def evMix : Event := ⟨none, none, some "unknown", some "critical", none, none, none, none⟩

/-- Counterexample for C7 as stated: on `risk_level = "unknown"`,
`urgency = "critical"`, the prediction engine scores 100 but the danger-zone
computation scores 25, so the two functions are not extensionally equal. -/
theorem severity_scores_differ_cex :
    pe_severity_score evMix = 100 ∧ dz_severity_score evMix = 25
      ∧ (100 : ℚ) ≠ 25 := by
  refine ⟨by decide, by decide, by decide⟩

/-! ### Evacuation zones (claim C6) -/

theorem evac_foldl_general (zones : List DangerZone) :
    ∀ acc : List EvacuationZone,
      zones.foldl
        (fun acc z =>
          if z.threat_level = "critical" ∨ z.threat_level = "severe"
          then acc ++ [mkEvacuation z] else acc)
        acc
      = acc ++ (zones.filter
          (fun z => z.threat_level = "critical" ∨ z.threat_level = "severe")).map
            mkEvacuation := by
  induction zones with
  | nil => intro acc; simp
  | cons z t ih =>
    intro acc
    rw [List.foldl_cons]
    by_cases hq : z.threat_level = "critical" ∨ z.threat_level = "severe"
    · rw [if_pos hq, ih, List.filter_cons_of_pos (by simpa using hq)]
      simp
    · rw [if_neg hq, ih, List.filter_cons_of_neg (by simpa using hq)]

/-- C6 (amended): evacuation zones are emitted exactly for the zones with
threat level critical or severe, in order; each carries
`evacuation_radius_km = radius_km * 1.5` (exact for the integer radii the
pipeline produces), `priority = "immediate"` iff critical, and
`estimated_population = FLOOR(pi * evacuation_radius^2 * 100)` — the code
truncates with `int(...)`, it does not round to nearest. -/
theorem evacuation_zones_filter_fields (zones : List DangerZone) :
    calculate_evacuation_zones zones
        = (zones.filter
            (fun z => z.threat_level = "critical" ∨ z.threat_level = "severe")).map
              mkEvacuation
      ∧ ∀ z : DangerZone, (∃ n : ℤ, z.radius_km = (n : ℚ)) →
          (mkEvacuation z).evacuation_radius_km = z.radius_km * (3/2)
          ∧ (mkEvacuation z).estimated_population
              = ⌊piQ * (z.radius_km * (3/2)) ^ 2 * 100⌋
          ∧ (mkEvacuation z).priority
              = (if z.threat_level = "critical" then "immediate" else "urgent")
          ∧ (mkEvacuation z).danger_radius_km = z.radius_km := by
  constructor
  · unfold calculate_evacuation_zones
    rw [evac_foldl_general zones []]
    rfl
  · intro z hz
    rcases hz with ⟨n, hn⟩
    refine ⟨?_, ?_, rfl, rfl⟩
    · show round1 (z.radius_km * (3/2)) = z.radius_km * (3/2)
      rw [hn]
      unfold round1
      rw [show ((n : ℚ) * (3/2) * 10) = (((n * 15 : ℤ)) : ℚ) from by push_cast; ring,
        pyRound_int]
      push_cast
      ring
    · show pyInt (piQ * (z.radius_km * (3/2)) ^ 2 * 100) = _
      exact pyInt_of_nonneg _ (by unfold piQ; positivity)

/-- The danger zone of the spec's own worked example family: integer radius
9 km (event_count 2), threat critical. -/
def zoneEx : DangerZone := ⟨0, 0, 9, 80, "critical", 2, "fire"⟩

/-- Witness for C6's amended theorem at `zoneEx`. -/
theorem evacuation_zones_filter_fields_witness :
    (mkEvacuation zoneEx).evacuation_radius_km = zoneEx.radius_km * (3/2)
      ∧ (mkEvacuation zoneEx).estimated_population
          = ⌊piQ * (zoneEx.radius_km * (3/2)) ^ 2 * 100⌋
      ∧ (mkEvacuation zoneEx).priority
          = (if zoneEx.threat_level = "critical" then "immediate" else "urgent")
      ∧ (mkEvacuation zoneEx).danger_radius_km = zoneEx.radius_km :=
  (evacuation_zones_filter_fields [zoneEx]).2 zoneEx ⟨9, by norm_num [zoneEx]⟩

/-- Counterexample for C6 as stated: for a critical zone of radius 9 km the
code's `int(pi * 13.5**2 * 100)` gives 57255, while the claimed
`round(pi * 13.5**2 * 100)` is 57256. -/
theorem evacuation_population_truncated_cex :
    ((calculate_evacuation_zones [zoneEx]).map (fun ez => ez.estimated_population))
        = [57255]
      ∧ pyRound (piQ * ((9 : ℚ) * (3/2)) ^ 2 * 100) = 57256
      ∧ (57255 : ℤ) ≠ 57256 := by
  refine ⟨?_, ?_, by decide⟩
  · unfold calculate_evacuation_zones
    rw [List.foldl_cons, List.foldl_nil,
      if_pos (show zoneEx.threat_level = "critical" ∨ zoneEx.threat_level = "severe"
        from Or.inl rfl)]
    show [(mkEvacuation zoneEx).estimated_population] = [57255]
    norm_num [mkEvacuation, zoneEx, pyInt, piQ]
  · norm_num [pyRound, piQ]

/-! ### Missing / zero coordinates (claim C10) -/

theorem foldl_skip_excluded {β : Type} (f : β → Event → β)
    (hf : ∀ (a : β) (e : Event), includedLoc e = false → f a e = a) :
    ∀ (l : List Event) (a : β), l.foldl f a = (l.filter includedLoc).foldl f a := by
  intro l
  induction l with
  | nil => intro a; rfl
  | cons e t ih =>
    intro a
    rcases he : includedLoc e with _ | _
    · rw [List.foldl_cons, hf a e he, List.filter_cons_of_neg (by simp [he]), ih]
    · rw [List.foldl_cons, List.filter_cons_of_pos (by simp [he]), List.foldl_cons, ih]

theorem addFine_excluded (g : List FineCell) (e : Event)
    (h : includedLoc e = false) : addFine g e = g := by
  unfold addFine
  simp [h]

theorem zone_step_excluded (dist : ℚ → ℚ → ℚ → ℚ → ℚ) (clat clon r : ℚ)
    (a : ℚ × ℕ) (e : Event) (h : includedLoc e = false) :
    (if includedLoc e then
        (if dist clat clon (e.lat?.getD 0) (e.lon?.getD 0) ≤ r
         then (a.1 + dz_severity_score e
                 * (1 - dist clat clon (e.lat?.getD 0) (e.lon?.getD 0) / r), a.2 + 1)
         else a)
      else a) = a := by
  simp [h]

/-- C10 (amended): an event whose latitude or longitude is missing or zero is
dropped entirely by the fine-hotspot routine and by the zone-intensity
computation (both are invariant under filtering to included events), while the
coarse aggregator counts EVERY event, substituting 0 for a missing coordinate:
a lone weather event always yields exactly one cell, at the grid key of its
substituted coordinates — which is cell (0, 0) precisely when both
coordinates are missing or zero (not when only one of them is). -/
theorem location_guard_behavior :
    (∀ events : List Event,
        identify_hotspots events = identify_hotspots (events.filter includedLoc))
      ∧ (∀ (dist : ℚ → ℚ → ℚ → ℚ → ℚ) (events : List Event) (clat clon r : ℚ),
          calculate_zone_intensity dist events clat clon r
            = calculate_zone_intensity dist (events.filter includedLoc) clat clon r)
      ∧ (∀ e : Event,
          (get_hotspots [e] []).map hkey
              = [(gridSnap05 (e.lat?.getD 0), gridSnap05 (e.lon?.getD 0))]
            ∧ (get_hotspots [e] []).map (fun h => h.event_count) = [1])
      ∧ (∀ e : Event, e.lat?.getD 0 = 0 → e.lon?.getD 0 = 0 →
          wkey e = ((0 : ℚ), (0 : ℚ))) := by
  refine ⟨?_, ?_, ?_, ?_⟩
  · intro events
    unfold identify_hotspots fineGrid
    rw [foldl_skip_excluded addFine addFine_excluded events []]
  · intro dist events clat clon r
    unfold calculate_zone_intensity
    rw [foldl_skip_excluded _ (zone_step_excluded dist clat clon r) events ((0 : ℚ), (0 : ℕ))]
  · intro e
    have h1 : buildGrid [e] [] = [applyWeather (freshCell (wkey e)) e] := by
      unfold buildGrid
      rw [List.foldl_nil, List.foldl_cons, List.foldl_nil]
      unfold addWeather
      simp
      intro h
      exact absurd rfl h
    have h2 : get_hotspots [e] [] = [toHotspot (applyWeather (freshCell (wkey e)) e)] := by
      unfold get_hotspots
      rw [h1]
      simp [List.insertionSort, List.orderedInsert]
    rw [h2]
    constructor
    · rfl
    · rfl
  · intro e h1 h2
    unfold wkey
    rw [h1, h2, show gridSnap05 0 = 0 from by norm_num [gridSnap05, pyRound]]

/-- Witness for C10's amended theorem: the social event at (10, 10) passes
the guard; an event with both coordinates missing lands in cell (0, 0). -/
theorem location_guard_behavior_witness :
    identify_hotspots [evS10] = identify_hotspots ([evS10].filter includedLoc)
      ∧ wkey evMix = ((0 : ℚ), (0 : ℚ)) :=
  ⟨location_guard_behavior.1 [evS10],
    location_guard_behavior.2.2.2 evMix rfl rfl⟩

/-- An event whose latitude is missing but whose longitude is 40. -/
def evLatMissing : Event := ⟨none, some 40, some "high", none, none, none, none, none⟩

/-- Counterexample for C10 as stated: an event with a missing latitude and
longitude 40 is counted by the coarse aggregator toward cell (0, 40) — not
toward cell (0, 0) as the claim asserts for every event with a missing
coordinate. -/
theorem coarse_grid_missing_coord_cex :
    (get_hotspots [evLatMissing] []).map hkey = [((0 : ℚ), (40 : ℚ))]
      ∧ (((0 : ℚ), (40 : ℚ)) : ℚ × ℚ) ≠ ((0 : ℚ), (0 : ℚ)) := by
  constructor
  · have h1 : buildGrid [evLatMissing] []
        = [applyWeather (freshCell (wkey evLatMissing)) evLatMissing] := by
      unfold buildGrid
      rw [List.foldl_nil, List.foldl_cons, List.foldl_nil]
      unfold addWeather
      simp
      intro h
      exact absurd rfl h
    have h2 : get_hotspots [evLatMissing] []
        = [toHotspot (applyWeather (freshCell (wkey evLatMissing)) evLatMissing)] := by
      unfold get_hotspots
      rw [h1]
      simp [List.insertionSort, List.orderedInsert]
    rw [h2]
    show [wkey evLatMissing] = [((0 : ℚ), (40 : ℚ))]
    rw [show wkey evLatMissing = ((0 : ℚ), (40 : ℚ)) from by
      unfold wkey evLatMissing gridSnap05 pyRound
      norm_num]
  · intro h
    have h40 : (40 : ℚ) = 0 := congrArg Prod.snd h
    norm_num at h40

/-! ### Intensity bounds (claim C8) -/

theorem dz_severity_score_bounds (e : Event) :
    25 ≤ dz_severity_score e ∧ dz_severity_score e ≤ 100 := by
  unfold dz_severity_score severity_map
  split_ifs <;> norm_num

theorem pe_severity_score_bounds (e : Event) :
    25 ≤ pe_severity_score e ∧ pe_severity_score e ≤ 100 := by
  unfold pe_severity_score severity_map
  split_ifs <;> norm_num

theorem fold_pair_invariant (f : ℚ × ℕ → Event → ℚ × ℕ)
    (hf : ∀ (a : ℚ × ℕ) (e : Event),
      f a e = a ∨ ∃ t : ℚ, 0 ≤ t ∧ t ≤ 100 ∧ f a e = (a.1 + t, a.2 + 1)) :
    ∀ (l : List Event) (a : ℚ × ℕ), 0 ≤ a.1 → a.1 ≤ 100 * (a.2 : ℚ) →
      0 ≤ (l.foldl f a).1 ∧ (l.foldl f a).1 ≤ 100 * ((l.foldl f a).2 : ℚ) := by
  intro l
  induction l with
  | nil => intro a h0 h1; exact ⟨h0, h1⟩
  | cons e t ih =>
    intro a h0 h1
    rw [List.foldl_cons]
    rcases hf a e with he | ⟨v, hv0, hv1, he⟩
    · rw [he]
      exact ih a h0 h1
    · rw [he]
      apply ih
      · exact add_nonneg h0 hv0
      · show a.1 + v ≤ 100 * ((a.2 + 1 : ℕ) : ℚ)
        push_cast
        linarith

theorem calculate_zone_intensity_bounds (dist : ℚ → ℚ → ℚ → ℚ → ℚ)
    (events : List Event) (clat clon r : ℚ)
    (hd : ∀ la lo, 0 ≤ dist clat clon la lo) (hr : 0 < r) :
    0 ≤ calculate_zone_intensity dist events clat clon r
      ∧ calculate_zone_intensity dist events clat clon r ≤ 100 := by
  unfold calculate_zone_intensity
  have hstep : ∀ (a : ℚ × ℕ) (e : Event),
      (fun (a : ℚ × ℕ) e =>
        if includedLoc e then
          let d := dist clat clon (e.lat?.getD 0) (e.lon?.getD 0)
          if d ≤ r then (a.1 + dz_severity_score e * (1 - d / r), a.2 + 1) else a
        else a) a e = a
      ∨ ∃ t : ℚ, 0 ≤ t ∧ t ≤ 100 ∧
          (fun (a : ℚ × ℕ) e =>
            if includedLoc e then
              let d := dist clat clon (e.lat?.getD 0) (e.lon?.getD 0)
              if d ≤ r then (a.1 + dz_severity_score e * (1 - d / r), a.2 + 1) else a
            else a) a e = (a.1 + t, a.2 + 1) := by
    intro a e
    by_cases hin : includedLoc e
    · by_cases hdr : dist clat clon (e.lat?.getD 0) (e.lon?.getD 0) ≤ r
      · right
        refine ⟨dz_severity_score e
            * (1 - dist clat clon (e.lat?.getD 0) (e.lon?.getD 0) / r), ?_, ?_, ?_⟩
        · apply mul_nonneg
          · linarith [(dz_severity_score_bounds e).1]
          · have : dist clat clon (e.lat?.getD 0) (e.lon?.getD 0) / r ≤ 1 :=
              (div_le_one hr).mpr hdr
            linarith
        · have hfac : 1 - dist clat clon (e.lat?.getD 0) (e.lon?.getD 0) / r ≤ 1 := by
            have := div_nonneg (hd (e.lat?.getD 0) (e.lon?.getD 0)) (le_of_lt hr)
            linarith
          have hfac0 : 0 ≤ 1 - dist clat clon (e.lat?.getD 0) (e.lon?.getD 0) / r := by
            have : dist clat clon (e.lat?.getD 0) (e.lon?.getD 0) / r ≤ 1 :=
              (div_le_one hr).mpr hdr
            linarith
          calc dz_severity_score e
              * (1 - dist clat clon (e.lat?.getD 0) (e.lon?.getD 0) / r)
              ≤ 100 * 1 := by
                apply mul_le_mul (dz_severity_score_bounds e).2 hfac hfac0
                norm_num
            _ = 100 := mul_one 100
        · simp [hin, hdr]
      · left
        simp [hin, hdr]
    · left
      simp [hin]
  have hinv := fold_pair_invariant _ hstep events ((0 : ℚ), (0 : ℕ))
    (le_refl 0) (by norm_num)
  set acc := events.foldl
      (fun (a : ℚ × ℕ) e =>
        if includedLoc e then
          let d := dist clat clon (e.lat?.getD 0) (e.lon?.getD 0)
          if d ≤ r then (a.1 + dz_severity_score e * (1 - d / r), a.2 + 1) else a
        else a) ((0 : ℚ), (0 : ℕ)) with hacc
  by_cases hn : 0 < acc.2
  · rw [if_pos hn]
    have hnq : (0 : ℚ) < (acc.2 : ℚ) := by exact_mod_cast hn
    constructor
    · exact div_nonneg hinv.1 (le_of_lt hnq)
    · rw [div_le_iff hnq]
      linarith [hinv.2]
  · rw [if_neg hn]
    have h2 : acc.2 = 0 := by omega
    constructor
    · exact hinv.1
    · have := hinv.2
      rw [h2] at this
      push_cast at this
      linarith

theorem fineGrid_cell_bounds (l : List Event) :
    ∀ g : List FineCell,
      (∀ c ∈ g, 0 ≤ c.sevSum ∧ c.sevSum ≤ 100 * (c.count : ℚ)) →
      ∀ c ∈ l.foldl addFine g, 0 ≤ c.sevSum ∧ c.sevSum ≤ 100 * (c.count : ℚ) := by
  induction l with
  | nil => intro g hg; exact hg
  | cons e t ih =>
    intro g hg
    rw [List.foldl_cons]
    apply ih
    intro c hc
    unfold addFine at hc
    by_cases hin : includedLoc e
    · rw [if_pos hin] at hc
      rcases List.mem_map.mp hc with ⟨c0, hc0, rfl⟩
      have hc0b : 0 ≤ c0.sevSum ∧ c0.sevSum ≤ 100 * (c0.count : ℚ) := by
        by_cases hany : g.any (fun c => c.key = fkey e)
        · rw [if_pos hany] at hc0
          exact hg c0 hc0
        · rw [if_neg hany] at hc0
          rcases List.mem_append.mp hc0 with h | h
          · exact hg c0 h
          · rcases List.mem_singleton.mp h with rfl
            constructor <;> norm_num
      by_cases hk : c0.key = fkey e
      · rw [if_pos hk]
        have hs := pe_severity_score_bounds e
        constructor
        · show 0 ≤ c0.sevSum + pe_severity_score e
          linarith [hc0b.1, hs.1]
        · show c0.sevSum + pe_severity_score e ≤ 100 * ((c0.count + 1 : ℕ) : ℚ)
          push_cast
          linarith [hc0b.2, hs.2]
      · rw [if_neg hk]
        exact hc0b
    · rw [if_neg hin] at hc
      exact hg c hc

/-- C8: the danger-zone intensity lies in [0, 100] for every event list,
zone center and positive radius (given that the great-circle distance is
nonnegative, which haversine is), and the intensity of every fine hotspot
cell lies in [0, 100]. -/
theorem intensities_bounded :
    (∀ (dist : ℚ → ℚ → ℚ → ℚ → ℚ) (events : List Event) (clat clon r : ℚ),
        (∀ la lo, 0 ≤ dist clat clon la lo) → 0 < r →
          0 ≤ calculate_zone_intensity dist events clat clon r
            ∧ calculate_zone_intensity dist events clat clon r ≤ 100)
      ∧ (∀ (events : List Event) (h : FineHotspot), h ∈ identify_hotspots events →
          0 ≤ h.intensity ∧ h.intensity ≤ 100) := by
  constructor
  · intro dist events clat clon r hd hr
    exact calculate_zone_intensity_bounds dist events clat clon r hd hr
  · intro events h hmem
    unfold identify_hotspots at hmem
    have hmem2 := List.take_subset 10 _ hmem
    have hmem3 : h ∈ (fineGrid events).filterMap fineCellOut :=
      (List.perm_insertionSort fineGE _).mem_iff.mp hmem2
    rcases List.mem_filterMap.mp hmem3 with ⟨c, hcg, hco⟩
    unfold fineCellOut at hco
    by_cases h3 : 3 ≤ c.count
    · rw [if_pos h3] at hco
      have hcb : 0 ≤ c.sevSum ∧ c.sevSum ≤ 100 * (c.count : ℚ) :=
        fineGrid_cell_bounds events [] (by intro c hc; exact absurd hc (List.not_mem_nil c))
          c hcg
      have hicase : h.intensity = c.sevSum / (c.count : ℚ) := by
        rcases Option.some.inj hco with rfl
        rfl
      have hnq : (0 : ℚ) < (c.count : ℚ) := by
        have : 0 < c.count := by omega
        exact_mod_cast this
      rw [hicase]
      constructor
      · exact div_nonneg hcb.1 (le_of_lt hnq)
      · rw [div_le_iff hnq]
        linarith [hcb.2]
    · rw [if_neg h3] at hco
      exact absurd hco (by simp)

theorem fkey_evW10 : fkey evW10 = ((10 : ℚ), (10 : ℚ)) := by
  unfold fkey gridSnap005 pyRound evW10
  norm_num

theorem pe_score_evW10 : pe_severity_score evW10 = 75 := by decide

theorem includedLoc_evW10 : includedLoc evW10 = true := by
  unfold includedLoc truthy evW10
  norm_num

theorem fineGrid_three :
    fineGrid [evW10, evW10, evW10] = [⟨((10 : ℚ), (10 : ℚ)), 3, 225⟩] := by
  unfold fineGrid
  rw [List.foldl_cons, List.foldl_cons, List.foldl_cons, List.foldl_nil]
  unfold addFine
  rw [includedLoc_evW10, fkey_evW10, pe_score_evW10]
  norm_num

theorem identify_hotspots_three :
    identify_hotspots [evW10, evW10, evW10] = [⟨10, 10, 75, 3⟩] := by
  unfold identify_hotspots
  rw [fineGrid_three]
  rw [show ([⟨((10 : ℚ), (10 : ℚ)), 3, 225⟩] : List FineCell).filterMap fineCellOut
      = [⟨10, 10, 75, 3⟩] from by
    rw [List.filterMap_cons, List.filterMap_nil]
    unfold fineCellOut
    rw [if_pos (by norm_num)]
    norm_num]
  simp [List.insertionSort, List.orderedInsert]

/-- Witness for C8: zone intensity with the zero distance function on a
one-event cache, radius 1; and the single fine hotspot of a three-event
cache. -/
theorem intensities_bounded_witness :
    (0 ≤ calculate_zone_intensity (fun _ _ _ _ => 0) [evW10] 0 0 1
        ∧ calculate_zone_intensity (fun _ _ _ _ => 0) [evW10] 0 0 1 ≤ 100)
      ∧ (0 ≤ (⟨10, 10, 75, 3⟩ : FineHotspot).intensity
        ∧ (⟨10, 10, 75, 3⟩ : FineHotspot).intensity ≤ 100) :=
  ⟨intensities_bounded.1 (fun _ _ _ _ => 0) [evW10] 0 0 1
      (fun _ _ => le_refl 0) (by norm_num),
    intensities_bounded.2 [evW10, evW10, evW10] ⟨10, 10, 75, 3⟩
      (by rw [identify_hotspots_three]; exact List.mem_singleton.mpr rfl)⟩

/-! ### Guarded divisions and neutral values (claim C9) -/

theorem mapM_ok {α β : Type} (f : α → Except Unit β) (g : α → β) :
    ∀ l : List α, (∀ a ∈ l, f a = Except.ok (g a)) →
      l.mapM f = Except.ok (l.map g) := by
  intro l
  induction l with
  | nil => intro _; rfl
  | cons a t ih =>
    intro h
    rw [List.mapM_cons, h a (List.mem_cons_self _ _),
      ih (fun x hx => h x (List.mem_cons_of_mem _ hx))]
    rfl

theorem foldlM_ok {α β : Type} (f : β → α → Except Unit β) (g : β → α → β) :
    ∀ (l : List α) (b : β), (∀ a ∈ l, ∀ b0 : β, f b0 a = Except.ok (g b0 a)) →
      l.foldlM f b = Except.ok (l.foldl g b) := by
  intro l
  induction l with
  | nil => intro b _; rfl
  | cons a t ih =>
    intro b h
    rw [List.foldlM_cons, h a (List.mem_cons_self _ _) b]
    show t.foldlM f (g b a) = _
    rw [ih (g b a) (fun x hx b0 => h x (List.mem_cons_of_mem _ hx) b0), List.foldl_cons]

theorem divE_ok (a b : ℚ) (h : ¬ b = 0) : divE a b = Except.ok (a / b) := by
  unfold divE
  rw [if_neg h]

theorem fineCellOutE_ok (c : FineCell) : fineCellOutE c = Except.ok (fineCellOut c) := by
  unfold fineCellOutE fineCellOut
  by_cases h3 : 3 ≤ c.count
  · rw [if_pos h3, if_pos h3, divE_ok _ _ (by
      have : (0 : ℚ) < (c.count : ℚ) := by exact_mod_cast (by omega : 0 < c.count)
      linarith)]
    rfl
  · rw [if_neg h3, if_neg h3]
    rfl

theorem identify_hotspotsE_ok (events : List Event) :
    identify_hotspotsE events = Except.ok (identify_hotspots events) := by
  unfold identify_hotspotsE identify_hotspots
  rw [mapM_ok fineCellOutE fineCellOut _ (fun c _ => fineCellOutE_ok c)]
  show Except.ok _ = _
  rw [show ((fineGrid events).map fineCellOut).reduceOption
      = (fineGrid events).filterMap fineCellOut from by
    show ((fineGrid events).map fineCellOut).filterMap id = _
    rw [List.filterMap_map]
    rfl]


theorem exc_ok_bind {α β : Type} (a : α) (f : α → Except Unit β) :
    (Except.ok a >>= f) = f a := rfl

theorem exc_pure_bind {α β : Type} (a : α) (f : α → Except Unit β) :
    ((pure a : Except Unit α) >>= f) = f a := rfl

theorem calculate_velocityE_ok (now : ℤ) (events : List Event) :
    calculate_velocityE now events = Except.ok (calculate_velocity now events) := by
  simp only [calculate_velocityE, calculate_velocity]
  by_cases h1 : events.length < 2
  · conv_lhs => rw [if_pos h1]
    conv_rhs => rw [if_pos h1]
  · conv_lhs => rw [if_neg h1]
    conv_rhs => rw [if_neg h1]
    by_cases h2 : (sortedBuckets now events).length < 2
    · conv_lhs => rw [if_pos h2]
      conv_rhs => rw [if_pos h2]
    · conv_lhs => rw [if_neg h2]
      conv_rhs => rw [if_neg h2]
      by_cases h3 : 0 < (sortedBuckets now events).length
      · conv_lhs => rw [if_pos h3, if_pos ((by norm_num : (0 : ℚ) < 15)),
          divE_ok _ _ (by norm_num)]
        conv_rhs => rw [if_pos h3, if_pos ((by norm_num : (0 : ℚ) < 15))]
        simp only [exc_ok_bind]
        by_cases h4 : 3 < (sortedBuckets now events).length
        · have hspan : (0 : ℚ) < (((sortedBuckets now events).length - 3 : ℕ) : ℚ) * 5 := by
            have h5 : 0 < (sortedBuckets now events).length - 3 := by omega
            have hq : (0 : ℚ) < (((sortedBuckets now events).length - 3 : ℕ) : ℚ) := by
              exact_mod_cast h5
            linarith
          conv_lhs => rw [if_pos h4, if_pos hspan, divE_ok _ _ (by linarith)]
          conv_rhs => rw [if_pos h4, if_pos hspan]
          simp only [exc_ok_bind, exc_pure_bind]
          rfl
        · conv_lhs => rw [if_neg h4]
          conv_rhs => rw [if_neg h4]
          simp only [exc_pure_bind]
          rfl
      · conv_lhs => rw [if_neg h3]
        conv_rhs => rw [if_neg h3]
        simp only [exc_pure_bind]
        rfl

theorem calculate_zone_intensityE_ok (dist : ℚ → ℚ → ℚ → ℚ → ℚ)
    (events : List Event) (clat clon r : ℚ) (hr : ¬ r = 0) :
    calculate_zone_intensityE dist events clat clon r
      = Except.ok (calculate_zone_intensity dist events clat clon r) := by
  simp only [calculate_zone_intensityE, calculate_zone_intensity]
  rw [foldlM_ok _
    (fun (a : ℚ × ℕ) e =>
      if includedLoc e then
        let d := dist clat clon (e.lat?.getD 0) (e.lon?.getD 0)
        if d ≤ r then (a.1 + dz_severity_score e * (1 - d / r), a.2 + 1) else a
      else a)
    events ((0 : ℚ), (0 : ℕ))
    (by
      intro e _ a
      show (if includedLoc e then _ else _) = Except.ok (if includedLoc e then _ else _)
      by_cases hin : includedLoc e
      · rw [if_pos hin, if_pos hin]
        by_cases hd : dist clat clon (e.lat?.getD 0) (e.lon?.getD 0) ≤ r
        · show (if dist clat clon (e.lat?.getD 0) (e.lon?.getD 0) ≤ r then _ else _)
            = Except.ok (if dist clat clon (e.lat?.getD 0) (e.lon?.getD 0) ≤ r then _ else _)
          rw [if_pos hd, if_pos hd, divE_ok _ _ hr]
          rfl
        · show (if dist clat clon (e.lat?.getD 0) (e.lon?.getD 0) ≤ r then _ else _)
            = Except.ok (if dist clat clon (e.lat?.getD 0) (e.lon?.getD 0) ≤ r then _ else _)
          rw [if_neg hd, if_neg hd]
          rfl
      · rw [if_neg hin, if_neg hin]
        rfl)]
  set acc := events.foldl
    (fun (a : ℚ × ℕ) e =>
      if includedLoc e then
        let d := dist clat clon (e.lat?.getD 0) (e.lon?.getD 0)
        if d ≤ r then (a.1 + dz_severity_score e * (1 - d / r), a.2 + 1) else a
      else a) ((0 : ℚ), (0 : ℕ)) with hacc
  show (if 0 < acc.2 then divE acc.1 (acc.2 : ℚ) else pure acc.1)
    = Except.ok (if 0 < acc.2 then acc.1 / (acc.2 : ℚ) else acc.1)
  by_cases hn : 0 < acc.2
  · rw [if_pos hn, if_pos hn, divE_ok _ _ (by
      have : (0 : ℚ) < (acc.2 : ℚ) := by exact_mod_cast hn
      linarith)]
  · rw [if_neg hn, if_neg hn]
    rfl

theorem foldl_id_of_members {α β : Type} (f : β → α → β) (l : List α)
    (h : ∀ a ∈ l, ∀ b : β, f b a = b) : ∀ b : β, l.foldl f b = b := by
  induction l with
  | nil => intro b; rfl
  | cons x t ih =>
    intro b
    rw [List.foldl_cons, h x (List.mem_cons_self _ _) b]
    exact ih (fun a ha b0 => h a (List.mem_cons_of_mem _ ha) b0) b

/-- C9: the derived-view computations resolve degenerate inputs to neutral
values and guard every division.  (1) fewer than 2 events gives velocity 0,
trend stable; (2) fewer than 2 distinct 5-minute buckets likewise; (3) a zone
with no in-radius events has intensity 0; (4)–(6) the division-checked
variants of velocity, fine hotspots and zone intensity always return `ok`
with the plain value, so no `ZeroDivisionError` can propagate (for the zone
computation, given the nonzero radius every pipeline call site supplies —
`radius_km = min(50, 5 + 2·event_count) ≥ 5`). -/
theorem derived_views_guarded :
    (∀ (now : ℤ) (events : List Event), events.length < 2 →
        calculate_velocity now events = (0, "stable"))
      ∧ (∀ (now : ℤ) (events : List Event), (sortedBuckets now events).length < 2 →
          calculate_velocity now events = (0, "stable"))
      ∧ (∀ (dist : ℚ → ℚ → ℚ → ℚ → ℚ) (events : List Event) (clat clon r : ℚ),
          (∀ e ∈ events, includedLoc e = true →
            ¬ dist clat clon (e.lat?.getD 0) (e.lon?.getD 0) ≤ r) →
          calculate_zone_intensity dist events clat clon r = 0)
      ∧ (∀ (now : ℤ) (events : List Event),
          calculate_velocityE now events = Except.ok (calculate_velocity now events))
      ∧ (∀ events : List Event,
          identify_hotspotsE events = Except.ok (identify_hotspots events))
      ∧ (∀ (dist : ℚ → ℚ → ℚ → ℚ → ℚ) (events : List Event) (clat clon r : ℚ),
          ¬ r = 0 →
          calculate_zone_intensityE dist events clat clon r
            = Except.ok (calculate_zone_intensity dist events clat clon r)) := by
  refine ⟨?_, ?_, ?_, calculate_velocityE_ok, identify_hotspotsE_ok,
    calculate_zone_intensityE_ok⟩
  · intro now events h
    unfold calculate_velocity
    rw [if_pos h]
  · intro now events h
    unfold calculate_velocity
    by_cases h1 : events.length < 2
    · rw [if_pos h1]
    · rw [if_neg h1, if_pos h]
  · intro dist events clat clon r hz
    unfold calculate_zone_intensity
    rw [foldl_id_of_members _ events
      (by
        intro e he a
        show (if includedLoc e then _ else _) = a
        by_cases hin : includedLoc e
        · rw [if_pos hin]
          show (if dist clat clon (e.lat?.getD 0) (e.lon?.getD 0) ≤ r then _ else _) = a
          rw [if_neg (hz e he hin)]
        · rw [if_neg hin])
      ((0 : ℚ), (0 : ℕ))]
    show (if 0 < (((0 : ℚ), (0 : ℕ)) : ℚ × ℕ).2 then _ else ((0 : ℚ), (0 : ℕ)).1) = (0 : ℚ)
    rw [if_neg (by norm_num)]

/-- Witness for C9 on concrete inputs: the empty window, a one-event zone with
the constant distance 1 and radius 1/2 (no event in radius), and the checked
zone computation at radius 1. -/
theorem derived_views_guarded_witness :
    calculate_velocity 0 [] = (0, "stable")
      ∧ calculate_zone_intensity (fun _ _ _ _ => 1) [evW10] 0 0 (1/2) = 0
      ∧ calculate_zone_intensityE (fun _ _ _ _ => 1) [evW10] 0 0 1
          = Except.ok (calculate_zone_intensity (fun _ _ _ _ => 1) [evW10] 0 0 1) :=
  ⟨derived_views_guarded.1 0 [] (by norm_num),
    derived_views_guarded.2.2.1 (fun _ _ _ _ => 1) [evW10] 0 0 (1/2)
      (by intro e he hin; norm_num),
    derived_views_guarded.2.2.2.2.2 (fun _ _ _ _ => 1) [evW10] 0 0 1 (by norm_num)⟩

/-! ### The spec's bucket-count example (claim C5) -/

/-- An event with only a timestamp (minutes); locations and risk fields
absent, as the velocity computation ignores them. -/
def mkTsEvent (m : ℤ) : Event :=
  ⟨none, none, none, none, none, none, none, some m⟩

/-- Timestamps (in minutes) realising the spec's example bucket counts
[2,2,2,2,2,2,40]: two events in each of the six 5-minute buckets 0–5, then
forty events in bucket 6, in timestamp order. -/
def bucketMinutes : List ℤ :=
  [0, 0, 5, 5, 10, 10, 15, 15, 20, 20, 25, 25] ++ List.replicate 40 30

/-- The 52-event window of the example. -/
def ev52 : List Event := bucketMinutes.map mkTsEvent

theorem bucketCount_eval (now : ℤ) (l : List Event) (b : ℤ) (n : ℕ)
    (h : (l.filter (fun e => bucketOf now e = b)).length = n) :
    bucketCount now l b = (n : ℚ) := by
  unfold bucketCount
  rw [h]

theorem vel_ev52 : calculate_velocity 0 ev52 = (152, "escalating_rapidly") := by
  simp only [calculate_velocity]
  rw [show sortedBuckets 0 ev52 = [0, 1, 2, 3, 4, 5, 6] from by decide,
    if_neg (by decide : ¬ ev52.length < 2)]
  norm_num
  rw [show bucketCount 0 ev52 4 = ((2 : ℕ) : ℚ) from bucketCount_eval 0 ev52 4 2 (by decide),
    show bucketCount 0 ev52 5 = ((2 : ℕ) : ℚ) from bucketCount_eval 0 ev52 5 2 (by decide),
    show bucketCount 0 ev52 6 = ((40 : ℕ) : ℚ) from bucketCount_eval 0 ev52 6 40 (by decide),
    show bucketCount 0 ev52 0 = ((2 : ℕ) : ℚ) from bucketCount_eval 0 ev52 0 2 (by decide),
    show bucketCount 0 ev52 1 = ((2 : ℕ) : ℚ) from bucketCount_eval 0 ev52 1 2 (by decide),
    show bucketCount 0 ev52 2 = ((2 : ℕ) : ℚ) from bucketCount_eval 0 ev52 2 2 (by decide),
    show bucketCount 0 ev52 3 = ((2 : ℕ) : ℚ) from bucketCount_eval 0 ev52 3 2 (by decide)]
  norm_num

theorem vel_ev52_drop2 : calculate_velocity 0 (ev52.drop 2) = (152, "escalating_rapidly") := by
  simp only [calculate_velocity]
  rw [show sortedBuckets 0 (ev52.drop 2) = [1, 2, 3, 4, 5, 6] from by decide,
    if_neg (by decide : ¬ (ev52.drop 2).length < 2)]
  norm_num
  rw [show bucketCount 0 (ev52.drop 2) 4 = ((2 : ℕ) : ℚ)
      from bucketCount_eval 0 _ 4 2 (by decide),
    show bucketCount 0 (ev52.drop 2) 5 = ((2 : ℕ) : ℚ)
      from bucketCount_eval 0 _ 5 2 (by decide),
    show bucketCount 0 (ev52.drop 2) 6 = ((40 : ℕ) : ℚ)
      from bucketCount_eval 0 _ 6 40 (by decide),
    show bucketCount 0 (ev52.drop 2) 1 = ((2 : ℕ) : ℚ)
      from bucketCount_eval 0 _ 1 2 (by decide),
    show bucketCount 0 (ev52.drop 2) 2 = ((2 : ℕ) : ℚ)
      from bucketCount_eval 0 _ 2 2 (by decide),
    show bucketCount 0 (ev52.drop 2) 3 = ((2 : ℕ) : ℚ)
      from bucketCount_eval 0 _ 3 2 (by decide)]
  norm_num

theorem vel_ev52_take26 : calculate_velocity 0 (ev52.take 26) = (48, "escalating_rapidly") := by
  simp only [calculate_velocity]
  rw [show sortedBuckets 0 (ev52.take 26) = [0, 1, 2, 3, 4, 5, 6] from by decide,
    if_neg (by decide : ¬ (ev52.take 26).length < 2)]
  norm_num
  rw [show bucketCount 0 (ev52.take 26) 4 = ((2 : ℕ) : ℚ)
      from bucketCount_eval 0 _ 4 2 (by decide),
    show bucketCount 0 (ev52.take 26) 5 = ((2 : ℕ) : ℚ)
      from bucketCount_eval 0 _ 5 2 (by decide),
    show bucketCount 0 (ev52.take 26) 6 = ((14 : ℕ) : ℚ)
      from bucketCount_eval 0 _ 6 14 (by decide),
    show bucketCount 0 (ev52.take 26) 0 = ((2 : ℕ) : ℚ)
      from bucketCount_eval 0 _ 0 2 (by decide),
    show bucketCount 0 (ev52.take 26) 1 = ((2 : ℕ) : ℚ)
      from bucketCount_eval 0 _ 1 2 (by decide),
    show bucketCount 0 (ev52.take 26) 2 = ((2 : ℕ) : ℚ)
      from bucketCount_eval 0 _ 2 2 (by decide),
    show bucketCount 0 (ev52.take 26) 3 = ((2 : ℕ) : ℚ)
      from bucketCount_eval 0 _ 3 2 (by decide)]
  norm_num

theorem accel_ev52 : calculate_risk_acceleration 0 ev52 = 104 := by
  simp only [calculate_risk_acceleration]
  rw [if_neg (by decide : ¬ ev52.length < 10),
    if_pos (by decide : 50 < ev52.length),
    if_neg (by decide : ¬ 100 < ev52.length),
    show ev52.length - 50 = 2 from by decide,
    show ev52.length / 2 = 26 from by decide,
    vel_ev52_drop2, vel_ev52_take26]
  norm_num

theorem pred30_eval :
    predictionFor "escalating_rapidly" 104 52 0 30 = ⟨30, 469/5, 26, "critical", 0⟩ := by
  simp only [predictionFor]
  simp only [if_neg ((by decide) : ¬ ("escalating_rapidly" : String) = "stable")]
  norm_num [severityBand, round1, pyRound, pyInt, min_def]

theorem predict_head :
    (predict_escalation 0 ev52).head? = some ⟨30, 469/5, 26, "critical", 0⟩ := by
  simp only [predict_escalation]
  rw [vel_ev52, accel_ev52, show identify_hotspots ev52 = [] from by decide]
  simp only [List.map_cons, List.head?_cons, List.length_nil]
  show some (predictionFor "escalating_rapidly" 104 ev52.length 0 30) = _
  rw [show ev52.length = 52 from by decide, pred30_eval]

/-- Counterexample for C5 as stated: on the window realising bucket counts
[2,2,2,2,2,2,40] the velocity is exactly 152 events/hour — the older-period
rate 8/20 is subtracted from the recent rate, so the claimed value 176
(= 44/15 × 60 with no subtraction) is wrong by 24 events/hour. -/
theorem bucket_example_velocity_cex :
    calculate_velocity 0 ev52 = (152, "escalating_rapidly") ∧ ((152 : ℚ) ≠ 176) :=
  ⟨vel_ev52, by norm_num⟩

/-- C5 (amended): for the event window realising bucket counts
[2,2,2,2,2,2,40] (events in timestamp order), velocity =
(44/15 − 8/20) × 60 = 152 events/hour with trend escalating_rapidly; the
window's acceleration is 104 (> 10), so the 30-minute prediction has base
min(100, 85+15) = 100 and probability 100 × (0.5 + 0.5 × (1 − 30/240)) =
93.75 (stored rounded to 93.8), confidence 26, severity "critical";
and even the claim's own probability 85 × (0.5 + 0.5 × (1 − 30/240)) ≈ 79.7
would fall in the > 75 band, making the severity "critical", not "high". -/
theorem bucket_example_actual_values :
    calculate_velocity 0 ev52 = (152, "escalating_rapidly")
      ∧ calculate_risk_acceleration 0 ev52 = 104
      ∧ (predict_escalation 0 ev52).head? = some ⟨30, 469/5, 26, "critical", 0⟩
      ∧ severityBand (85 * (1/2 + 1/2 * (1 - 30/240))) = "critical" :=
  ⟨vel_ev52, accel_ev52, predict_head, by norm_num [severityBand]⟩
